import Mathlib

/-!
# grv status bar (`status_bar_view.go`): shallow embedding

The status bar is a three-field record (`active`, `promptType`, `pendingStatus`)
driven by `HandleAction`, `OnActiveChange` and `Render`.  Everything the file
calls but does not define (the blocking input primitive `Prompt`, the command
evaluator, the channels, the render window, the logger, the mutex) is an
external collaborator.  Each call to a collaborator is recorded, in program
order, as an `Event` of the trace carried by the `World`; what a collaborator
returns is supplied by the environment `Env`.

Go strings are byte sequences, so `GoString` is a list of bytes; a `range`
loop over a string decodes UTF-8 the way the Go language defines it.
Go `int` values are modelled as `Int`: the two counters of `Render` are bounded
by three times the length of a string held in memory, far below `2^63`.
-/

namespace StatusBar

/-! ## Go strings -/

abbrev Byte := Fin 256

abbrev GoString := List Byte

/-- Go's UTF-8 encoding of one code point (the encoding used for string
literals); surrogates and values above `0x10FFFF` encode as `U+FFFD`. -/
def EncodeRune (r : Nat) : GoString :=
  if r < 0x80 then [Fin.ofNat r]
  else if r < 0x800 then [Fin.ofNat (0xC0 + r / 64), Fin.ofNat (0x80 + r % 64)]
  else if 0xD800 ≤ r ∧ r ≤ 0xDFFF then [0xEF, 0xBF, 0xBD]
  else if r < 0x10000 then
    [Fin.ofNat (0xE0 + r / 4096), Fin.ofNat (0x80 + r / 64 % 64), Fin.ofNat (0x80 + r % 64)]
  else if r ≤ 0x10FFFF then
    [Fin.ofNat (0xF0 + r / 262144), Fin.ofNat (0x80 + r / 4096 % 64),
     Fin.ofNat (0x80 + r / 64 % 64), Fin.ofNat (0x80 + r % 64)]
  else [0xEF, 0xBF, 0xBD]

/-- The Go string denoted by a string literal. -/
def str (s : String) : GoString :=
  s.toList.flatMap (fun c => EncodeRune c.toNat)

/-- Go's `utf8.RuneError`. -/
def RuneError : Int := 0xFFFD

/-- Continuation byte test (`locb ≤ b ≤ hicb`). -/
def isCont (b : Byte) : Bool := 0x80 ≤ b.val && b.val ≤ 0xBF

/-- Go's `utf8.DecodeRuneInString`: the first rune of `s` and its width in
bytes.  An invalid or truncated encoding gives `(RuneError, 1)`; the empty
string gives `(RuneError, 0)`. -/
def DecodeRuneInString (s : GoString) : Int × Nat :=
  match s with
  | [] => (RuneError, 0)
  | s0 :: rest =>
    if s0.val < 0x80 then ((s0.val : Int), 1)
    else if s0.val < 0xC2 then (RuneError, 1)
    else if s0.val < 0xE0 then
      match rest with
      | s1 :: _ =>
        if isCont s1 then (((s0.val % 32 * 64 + s1.val % 64 : Nat) : Int), 2)
        else (RuneError, 1)
      | _ => (RuneError, 1)
    else if s0.val < 0xF0 then
      let lo := if s0.val = 0xE0 then 0xA0 else 0x80
      let hi := if s0.val = 0xED then 0x9F else 0xBF
      match rest with
      | s1 :: s2 :: _ =>
        if s1.val < lo ∨ hi < s1.val then (RuneError, 1)
        else if !isCont s2 then (RuneError, 1)
        else (((s0.val % 16 * 4096 + s1.val % 64 * 64 + s2.val % 64 : Nat) : Int), 3)
      | _ => (RuneError, 1)
    else if s0.val < 0xF5 then
      let lo := if s0.val = 0xF0 then 0x90 else 0x80
      let hi := if s0.val = 0xF4 then 0x8F else 0xBF
      match rest with
      | s1 :: s2 :: s3 :: _ =>
        if s1.val < lo ∨ hi < s1.val then (RuneError, 1)
        else if !isCont s2 then (RuneError, 1)
        else if !isCont s3 then (RuneError, 1)
        else (((s0.val % 8 * 262144 + s1.val % 64 * 4096 + s2.val % 64 * 64 + s3.val % 64 : Nat)
                : Int), 4)
      | _ => (RuneError, 1)
    else (RuneError, 1)

/-- The runes a Go `for _, char := range s` loop visits, in order.  `skip` is
the number of bytes still belonging to the rune decoded last. -/
def rangeFrom : GoString → Nat → List Int
  | [], _ => []
  | _ :: rest, skip + 1 => rangeFrom rest skip
  | b :: rest, 0 =>
    let d := DecodeRuneInString (b :: rest)
    d.1 :: rangeFrom rest (d.2 - 1)

/-- Runes visited by `range s`. -/
def rangeRunes (s : GoString) : List Int := rangeFrom s 0

/-- Go's `utf8.RuneCountInString`: the number of code points of `s`. -/
def RuneCountInString (s : GoString) : Nat := (rangeRunes s).length

/-- Go's `utf8.RuneLen`: bytes needed to encode the rune, `-1` if it is not
a valid value to encode. -/
def RuneLen (r : Int) : Int :=
  if r < 0 then -1
  else if r ≤ 0x7F then 1
  else if r ≤ 0x7FF then 2
  else if 0xD800 ≤ r ∧ r ≤ 0xDFFF then -1
  else if r ≤ 0xFFFF then 3
  else if r ≤ 0x10FFFF then 4
  else -1

/-! ## Constants and data model (lines 11-41) -/

def PROMPT_TEXT : GoString := str ":"
def SEARCH_PROMPT_TEXT : GoString := str "/"
def REVERSE_SEARCH_PROMPT_TEXT : GoString := str "?"
def FILTER_PROMPT_TEXT : GoString := str "query: "

inductive PromptType where
  | PT_NONE
  | PT_COMMAND
  | PT_SEARCH
  | PT_FILTER
  deriving DecidableEq, Repr

open PromptType

structure PropertyValue where
  Property : GoString
  Value : GoString
  deriving DecidableEq, Repr

/-- Modelled from the spec: the `ActionType` enumeration is declared outside
this file.  The constructors are the action types the file names; every other
action type of the application is `ACTION_OTHER`. -/
inductive ActionType where
  | ACTION_PROMPT
  | ACTION_SEARCH_PROMPT
  | ACTION_REVERSE_SEARCH_PROMPT
  | ACTION_FILTER_PROMPT
  | ACTION_SHOW_STATUS
  | ACTION_SEARCH
  | ACTION_REVERSE_SEARCH
  | ACTION_CLEAR_SEARCH
  | ACTION_ADD_FILTER
  | ACTION_OTHER (code : Nat)
  deriving DecidableEq, Repr

open ActionType

/-- A Go `interface{}` value as far as the file distinguishes them: a string,
or a value of some other dynamic type. -/
inductive Arg where
  | string (s : GoString)
  | int (n : Int)
  | bool (b : Bool)
  | nil
  deriving DecidableEq, Repr

/-- Modelled from the spec: the `Action` struct is declared outside this file;
the file uses its fields `ActionType` and `Args`. -/
structure Action where
  ActionType : ActionType
  Args : List Arg := []
  deriving DecidableEq, Repr

/-- A Go `error` value: the format string and operands of `fmt.Errorf`, or an
error produced by a collaborator. -/
inductive GoError where
  | Errorf (format : String) (operands : List Arg)
  | external (msg : String)
  deriving DecidableEq, Repr

/-- The mutable fields of `StatusBarView` (lines 37-39).  The collaborator
handles `rootView`, `repoData`, `channels`, `config` are never reassigned; the
mutex appears as `Lock` / `Unlock` events. -/
structure StatusBarView where
  active : Bool
  promptType : PromptType
  pendingStatus : GoString
  deriving DecidableEq, Repr

/-- Style identifiers used by the file. -/
inductive ThemeComponentId where
  | CMP_STATUSBARVIEW_NORMAL
  | CMP_HELPBARVIEW_SPECIAL
  deriving DecidableEq, Repr

open ThemeComponentId

/-- One call made to a collaborator.  `Prompt` also records the bar as it
stands while the input primitive blocks: that is the state a concurrent
`Render` / `RenderHelpBar` observes during the prompt. -/
inductive Event where
  | Lock
  | Unlock
  | Infof (format : String) (operands : List Arg)
  | Debugf (format : String) (operands : List Arg)
  | Prompt (prompt : GoString) (visible : StatusBarView)
  | Evaluate (input : GoString)
  | ReportErrors (errors : List GoError)
  | DoAction (action : Action)
  | UpdateDisplay
  | LineBuilder (rowIndex startColumn : Nat)
  | Append (text : GoString)
  | AppendWithStyle (style : ThemeComponentId) (text : GoString)
  | SetCursor (rowIndex colIndex : Nat)
  | ApplyStyle (style : ThemeComponentId)
  deriving DecidableEq, Repr

/-- What the collaborators return. -/
structure Env where
  /-- text returned by the blocking input primitive `Prompt(prompt)` -/
  Prompt : GoString → GoString
  /-- errors returned by `config.Evaluate(input)` -/
  Evaluate : GoString → List GoError
  /-- result of `PromptState()`: prompt text, current input, edit byte offset -/
  PromptState : GoString × GoString × Int
  /-- display width of a rune, `rw.RuneWidth` of go-runewidth -/
  RuneWidth : Int → Int
  /-- error returned by `win.LineBuilder(0, 1)`, if any -/
  LineBuilderErr : Option GoError

/-- The bar together with the trace of collaborator calls made so far. -/
structure World where
  bar : StatusBarView
  trace : List Event
  deriving DecidableEq, Repr

/-- Record one collaborator call. -/
def World.emit (w : World) (e : Event) : World :=
  { w with trace := w.trace ++ [e] }

def World.setPromptType (w : World) (p : PromptType) : World :=
  { w with bar := { w.bar with promptType := p } }

def World.setPendingStatus (w : World) (s : GoString) : World :=
  { w with bar := { w.bar with pendingStatus := s } }

def World.setActive (w : World) (a : Bool) : World :=
  { w with bar := { w.bar with active := a } }

/-! ## Operations -/

/-- Go function `NewStatusBarView` (lines 43-50): the three mutable fields take their Go
zero values. -/
def NewStatusBarView : StatusBarView :=
  { active := false, promptType := PT_NONE, pendingStatus := [] }

/-- The blocking call `Prompt(prompt)`: the bar is visible as it stands for as
long as the call lasts; the text comes from the environment. -/
def Prompt (env : Env) (prompt : GoString) (w : World) : GoString × World :=
  (env.Prompt prompt, w.emit (Event.Prompt prompt w.bar))

/-- Go function `showCommandPrompt` (lines 90-96). -/
def showCommandPrompt (env : Env) (w : World) : World :=
  let w := w.setPromptType PT_COMMAND
  let (input, w) := Prompt env PROMPT_TEXT w
  let errors := env.Evaluate input
  let w := w.emit (Event.Evaluate input)
  let w := w.emit (Event.ReportErrors errors)
  w.setPromptType PT_NONE

/-- Go function `showSearchPrompt` (lines 98-114). -/
def showSearchPrompt (env : Env) (prompt : GoString) (actionType : ActionType) (w : World) :
    World :=
  let w := w.setPromptType PT_SEARCH
  let (input, w) := Prompt env prompt w
  let w :=
    if input = [] then
      w.emit (Event.DoAction { ActionType := ACTION_CLEAR_SEARCH })
    else
      w.emit (Event.DoAction { ActionType := actionType, Args := [Arg.string input] })
  w.setPromptType PT_NONE

/-- Go function `showFilterPrompt` (lines 116-128). -/
def showFilterPrompt (env : Env) (w : World) : World :=
  let w := w.setPromptType PT_FILTER
  let (input, w) := Prompt env FILTER_PROMPT_TEXT w
  let w :=
    if input ≠ [] then
      w.emit (Event.DoAction { ActionType := ACTION_ADD_FILTER, Args := [Arg.string input] })
    else w
  w.setPromptType PT_NONE

/-- Go function `HandleAction` (lines 60-88): the returned error and the world after the
call.  In the `ACTION_SHOW_STATUS` case the deferred `Unlock` runs on both
exits. -/
def HandleAction (env : Env) (action : Action) (w : World) : Option GoError × World :=
  match action.ActionType with
  | ACTION_PROMPT => (none, showCommandPrompt env w)
  | ACTION_SEARCH_PROMPT => (none, showSearchPrompt env SEARCH_PROMPT_TEXT ACTION_SEARCH w)
  | ACTION_REVERSE_SEARCH_PROMPT =>
    (none, showSearchPrompt env REVERSE_SEARCH_PROMPT_TEXT ACTION_REVERSE_SEARCH w)
  | ACTION_FILTER_PROMPT => (none, showFilterPrompt env w)
  | ACTION_SHOW_STATUS =>
    let w := w.emit Event.Lock
    match action.Args with
    | Arg.string status :: _ =>
      let w := w.setPendingStatus status
      let w := w.emit (Event.Infof "Received status: %v" [Arg.string status])
      let w := w.emit Event.UpdateDisplay
      (none, w.emit Event.Unlock)
    | _ =>
      (some (GoError.Errorf "Expected status argument but received: %v" action.Args),
        w.emit Event.Unlock)
  | _ => (none, w)

/-- Go function `OnActiveChange` (lines 130-138). -/
def OnActiveChange (active : Bool) (w : World) : World :=
  let w := w.emit Event.Lock
  let w := w.emit (Event.Debugf "StatusBarView active: %v" [Arg.bool active])
  let w := w.setActive active
  w.emit Event.Unlock

/-- The cursor loop of `Render` (lines 159-169) over the runes still to visit,
with the current values of `bytes` and `characters`; the result is the value
of `characters` when the loop ends. -/
def cursorLoop (RuneWidth : Int → Int) (promptPoint : Int) : List Int → Int → Int → Int
  | [], _, characters => characters
  | char :: rest, bytes, characters =>
    let bytes := bytes + RuneLen char
    if bytes > promptPoint then characters
    else if RuneWidth char > 0 then cursorLoop RuneWidth promptPoint rest bytes (characters + 1)
    else cursorLoop RuneWidth promptPoint rest bytes characters

/-- The value of `characters` that `Render` converts and passes to
`SetCursor` (lines 156-169): it starts at `len(promptText)`, the byte length. -/
def cursorColumn (RuneWidth : Int → Int) (promptText promptInput : GoString)
    (promptPoint : Int) : Int :=
  cursorLoop RuneWidth promptPoint (rangeRunes promptInput) 0 (promptText.length : Int)

/-- Go function `Render` (lines 144-178). -/
def Render (env : Env) (w : World) : Option GoError × World :=
  let w := w.emit Event.Lock
  let w := w.emit (Event.LineBuilder 0 1)
  match env.LineBuilderErr with
  | some err => (some err, w.emit Event.Unlock)
  | none =>
    if w.bar.active then
      let (promptText, promptInput, promptPoint) := env.PromptState
      let w := w.emit (Event.Append (promptText ++ promptInput))
      let characters := cursorColumn env.RuneWidth promptText promptInput promptPoint
      let w := w.emit (Event.SetCursor 0 characters.toNat)
      (none, w.emit Event.Unlock)
    else
      let w := w.emit (Event.Append (str " " ++ w.bar.pendingStatus))
      let w := w.emit (Event.ApplyStyle CMP_STATUSBARVIEW_NORMAL)
      (none, w.emit Event.Unlock)

/-- Go function `RenderHelpBar` (lines 184-201). -/
def RenderHelpBar (w : World) : Option GoError × World :=
  let message : GoString :=
    match w.bar.promptType with
    | PT_COMMAND => str "Enter a command"
    | PT_SEARCH => str "Enter a regex pattern"
    | PT_FILTER => str "Enter a filter query"
    | PT_NONE => str ""
  if message ≠ [] then
    (none, w.emit (Event.AppendWithStyle CMP_HELPBARVIEW_SPECIAL message))
  else (none, w)

/-- Go function `RenderStatusProperties` (lines 203-207). -/
def RenderStatusProperties (propertyValues : List PropertyValue) (w : World) : World :=
  propertyValues.foldl
    (fun w propValue =>
      w.emit (Event.Append (propValue.Property ++ str ": " ++ propValue.Value ++ str "     ")))
    w

/-! ## Sequences of calls and observations -/

/-- One of the two entry points that change the bar. -/
inductive Call where
  | handleAction (env : Env) (action : Action)
  | onActiveChange (active : Bool)

/-- Run one call to completion. -/
def Call.run (c : Call) (w : World) : World :=
  match c with
  | Call.handleAction env action => (HandleAction env action w).2
  | Call.onActiveChange active => OnActiveChange active w

/-- Run a sequence of calls, one after the other. -/
def runCalls (calls : List Call) (w : World) : World :=
  calls.foldl (fun w c => c.run w) w

/-- The bar states that were observable while the input primitive was
blocking, one per `Prompt` call of the trace. -/
def visibleDuringPrompt (trace : List Event) : List StatusBarView :=
  trace.filterMap (fun e => match e with
    | Event.Prompt _ visible => some visible
    | _ => none)

/-- Number of redraw requests (`channels.UpdateDisplay()`) in a trace. -/
def redrawRequests (trace : List Event) : Nat :=
  trace.count Event.UpdateDisplay

/-- The spec's invariant of `BarState`: `active = false ⇒ promptType = None`. -/
def Invariant (bar : StatusBarView) : Prop :=
  bar.active = false → bar.promptType = PT_NONE

instance (bar : StatusBarView) : Decidable (Invariant bar) := by
  unfold Invariant; infer_instance

/-- The world at start-up: the bar of `NewStatusBarView`, no call made yet. -/
def startWorld : World := { bar := NewStatusBarView, trace := [] }

/-- An environment whose input primitive returns `text` for every prompt, whose
evaluator reports `errors`, and whose prompt state is `state`. -/
def fixedEnv (text : GoString) (errors : List GoError) (state : GoString × GoString × Int) :
    Env :=
  { Prompt := fun _ => text
    Evaluate := fun _ => errors
    PromptState := state
    RuneWidth := fun _ => 1
    LineBuilderErr := none }

/-- Run a sequence of `ACTION_SHOW_STATUS` actions whose first argument is a
text; each item is that text and the arguments that follow it. -/
def showStatusAll (env : Env) (calls : List (GoString × List Arg)) (w : World) : World :=
  calls.foldl
    (fun w c => (HandleAction env { ActionType := ACTION_SHOW_STATUS,
                                    Args := Arg.string c.1 :: c.2 } w).2) w

/-! ## Notions used to state the properties -/

/-- A Unicode scalar value: a code point that is not a surrogate and is at
most `0x10FFFF`. -/
def ValidRune (r : Nat) : Prop := r < 0xD800 ∨ (0xE000 ≤ r ∧ r ≤ 0x10FFFF)

instance (r : Nat) : Decidable (ValidRune r) := by
  unfold ValidRune; infer_instance

/-- The UTF-8 text made of the given code points.  A Go string is valid UTF-8
exactly when it is `encodeRunes cs` for a list `cs` of scalar values. -/
def encodeRunes (cs : List Nat) : GoString := cs.flatMap EncodeRune

/-- Each code point of a text together with the byte position at which its
last byte ends, for a text that starts at byte position `pos`. -/
def withEnds : Nat → List Nat → List (Nat × Nat)
  | _, [] => []
  | pos, c :: cs =>
    (c, pos + (EncodeRune c).length) :: withEnds (pos + (EncodeRune c).length) cs

/-- Reference column in the words of the spec: the starting value for the
framing text plus the number of code points of the input that have positive
display width and whose last byte ends at a byte position `≤ p`. -/
def referenceColumn (RuneWidth : Int → Int) (promptText : GoString) (cs : List Nat)
    (p : Int) : Int :=
  (promptText.length : Int) +
    (((withEnds 0 cs).filter
        (fun ce => decide (RuneWidth (ce.1 : Int) > 0) && decide ((ce.2 : Int) ≤ p))).length : Int)

/-- Character count of a text under the spec's "characters" accounting rule:
the number of code points of the text that have positive display width. -/
def characterCount (RuneWidth : Int → Int) (s : GoString) : Nat :=
  ((rangeRunes s).filter (fun r => decide (RuneWidth r > 0))).length

/-- The text a trace appends to the line builder: the texts of its `Append`
and `AppendWithStyle` calls, concatenated in order. -/
def appendedText (trace : List Event) : GoString :=
  trace.flatMap (fun e => match e with
    | Event.Append text => text
    | Event.AppendWithStyle _ text => text
    | _ => [])

/-- The texts handed to the command evaluator, one per `Evaluate` call. -/
def evaluatorCalls (trace : List Event) : List GoString :=
  trace.filterMap (fun e => match e with
    | Event.Evaluate input => some input
    | _ => none)

/-- Number of times a trace takes the lock. -/
def lockCalls (trace : List Event) : Nat :=
  trace.count Event.Lock

/-- A sample of display widths as go-runewidth reports them: the combining
acute accent `U+0301` has width 0, the ideograph `U+6F22` has width 2, the
other runes used in the examples have width 1. -/
def sampleWidth (r : Int) : Int :=
  if r = 0x301 then 0 else if r = 0x6F22 then 2 else 1

/-! ## What each operation does, in full -/

theorem showCommandPrompt_eq (env : Env) (w : World) :
    showCommandPrompt env w =
      { bar := { w.bar with promptType := PT_NONE }
        trace := w.trace ++
          [Event.Prompt PROMPT_TEXT { w.bar with promptType := PT_COMMAND },
           Event.Evaluate (env.Prompt PROMPT_TEXT),
           Event.ReportErrors (env.Evaluate (env.Prompt PROMPT_TEXT))] } := by
  simp [showCommandPrompt, Prompt, World.emit, World.setPromptType]

theorem showSearchPrompt_eq (env : Env) (prompt : GoString) (actionType : ActionType)
    (w : World) :
    showSearchPrompt env prompt actionType w =
      { bar := { w.bar with promptType := PT_NONE }
        trace := w.trace ++
          [Event.Prompt prompt { w.bar with promptType := PT_SEARCH },
           Event.DoAction
             (if env.Prompt prompt = [] then { ActionType := ACTION_CLEAR_SEARCH }
              else { ActionType := actionType, Args := [Arg.string (env.Prompt prompt)] })] } := by
  by_cases h : env.Prompt prompt = [] <;>
    simp [showSearchPrompt, Prompt, World.emit, World.setPromptType, h]

theorem showFilterPrompt_eq (env : Env) (w : World) :
    showFilterPrompt env w =
      { bar := { w.bar with promptType := PT_NONE }
        trace := w.trace ++
          (Event.Prompt FILTER_PROMPT_TEXT { w.bar with promptType := PT_FILTER } ::
            (if env.Prompt FILTER_PROMPT_TEXT = [] then []
             else [Event.DoAction { ActionType := ACTION_ADD_FILTER,
                                    Args := [Arg.string (env.Prompt FILTER_PROMPT_TEXT)] }])) } := by
  by_cases h : env.Prompt FILTER_PROMPT_TEXT = [] <;>
    simp [showFilterPrompt, Prompt, World.emit, World.setPromptType, h]

theorem HandleAction_showStatus_text (env : Env) (w : World) (status : GoString)
    (rest : List Arg) :
    HandleAction env { ActionType := ACTION_SHOW_STATUS, Args := Arg.string status :: rest } w =
      (none,
        { bar := { w.bar with pendingStatus := status }
          trace := w.trace ++
            [Event.Lock, Event.Infof "Received status: %v" [Arg.string status],
             Event.UpdateDisplay, Event.Unlock] }) := by
  simp [HandleAction, World.emit, World.setPendingStatus]

theorem HandleAction_showStatus_other (env : Env) (w : World) (args : List Arg)
    (h : ∀ status rest, args ≠ Arg.string status :: rest) :
    HandleAction env { ActionType := ACTION_SHOW_STATUS, Args := args } w =
      (some (GoError.Errorf "Expected status argument but received: %v" args),
        { bar := w.bar, trace := w.trace ++ [Event.Lock, Event.Unlock] }) := by
  match args, h with
  | [], _ => simp [HandleAction, World.emit]
  | Arg.string status :: rest, h => exact absurd rfl (h status rest)
  | Arg.int _ :: _, _ => simp [HandleAction, World.emit]
  | Arg.bool _ :: _, _ => simp [HandleAction, World.emit]
  | Arg.nil :: _, _ => simp [HandleAction, World.emit]

theorem visibleDuringPrompt_append (t u : List Event) :
    visibleDuringPrompt (t ++ u) = visibleDuringPrompt t ++ visibleDuringPrompt u := by
  simp [visibleDuringPrompt, List.filterMap_append]

/-- A completed call keeps `promptType = PT_NONE`, and every bar state it
exposes while the input primitive blocks has a prompt type other than
`PT_NONE`. -/
theorem Call.run_preserves (c : Call) (w : World) (h1 : w.bar.promptType = PT_NONE)
    (h2 : ∀ b ∈ visibleDuringPrompt w.trace, b.promptType ≠ PT_NONE) :
    (c.run w).bar.promptType = PT_NONE ∧
      ∀ b ∈ visibleDuringPrompt (c.run w).trace, b.promptType ≠ PT_NONE := by
  cases c with
  | onActiveChange active =>
    refine ⟨by simpa [Call.run, OnActiveChange, World.emit, World.setActive] using h1, ?_⟩
    intro b hb
    apply h2 b
    simpa [Call.run, OnActiveChange, World.emit, World.setActive, visibleDuringPrompt,
      List.filterMap_append] using hb
  | handleAction env action =>
    obtain ⟨ty, args⟩ := action
    cases ty with
    | ACTION_PROMPT =>
      refine ⟨by simp [Call.run, HandleAction, showCommandPrompt_eq], ?_⟩
      intro b hb
      simp only [Call.run, HandleAction, showCommandPrompt_eq, visibleDuringPrompt_append,
        List.mem_append] at hb
      rcases hb with hb | hb
      · exact h2 b hb
      · simp [visibleDuringPrompt] at hb
        subst hb; simp
    | ACTION_SEARCH_PROMPT =>
      refine ⟨by simp [Call.run, HandleAction, showSearchPrompt_eq], ?_⟩
      intro b hb
      simp only [Call.run, HandleAction, showSearchPrompt_eq, visibleDuringPrompt_append,
        List.mem_append] at hb
      rcases hb with hb | hb
      · exact h2 b hb
      · simp [visibleDuringPrompt] at hb
        subst hb; simp
    | ACTION_REVERSE_SEARCH_PROMPT =>
      refine ⟨by simp [Call.run, HandleAction, showSearchPrompt_eq], ?_⟩
      intro b hb
      simp only [Call.run, HandleAction, showSearchPrompt_eq, visibleDuringPrompt_append,
        List.mem_append] at hb
      rcases hb with hb | hb
      · exact h2 b hb
      · simp [visibleDuringPrompt] at hb
        subst hb; simp
    | ACTION_FILTER_PROMPT =>
      refine ⟨by simp [Call.run, HandleAction, showFilterPrompt_eq], ?_⟩
      intro b hb
      simp only [Call.run, HandleAction, showFilterPrompt_eq, visibleDuringPrompt_append,
        List.mem_append] at hb
      rcases hb with hb | hb
      · exact h2 b hb
      · by_cases ht : env.Prompt FILTER_PROMPT_TEXT = [] <;>
          simp [visibleDuringPrompt, ht] at hb <;> (subst hb; simp)
    | ACTION_SHOW_STATUS =>
      by_cases hs : ∃ status rest, args = Arg.string status :: rest
      · obtain ⟨status, rest, rfl⟩ := hs
        refine ⟨by simpa [Call.run, HandleAction_showStatus_text] using h1, ?_⟩
        intro b hb
        apply h2 b
        simpa [Call.run, HandleAction_showStatus_text, visibleDuringPrompt,
          List.filterMap_append] using hb
      · have hs2 : ∀ status rest, args ≠ Arg.string status :: rest :=
          fun status rest h => hs ⟨status, rest, h⟩
        refine ⟨by simpa [Call.run, HandleAction_showStatus_other _ _ _ hs2] using h1, ?_⟩
        intro b hb
        apply h2 b
        simpa [Call.run, HandleAction_showStatus_other _ _ _ hs2, visibleDuringPrompt,
          List.filterMap_append] using hb
    | ACTION_SEARCH => exact ⟨by simpa [Call.run, HandleAction] using h1,
        by simpa [Call.run, HandleAction] using h2⟩
    | ACTION_REVERSE_SEARCH => exact ⟨by simpa [Call.run, HandleAction] using h1,
        by simpa [Call.run, HandleAction] using h2⟩
    | ACTION_CLEAR_SEARCH => exact ⟨by simpa [Call.run, HandleAction] using h1,
        by simpa [Call.run, HandleAction] using h2⟩
    | ACTION_ADD_FILTER => exact ⟨by simpa [Call.run, HandleAction] using h1,
        by simpa [Call.run, HandleAction] using h2⟩
    | ACTION_OTHER code => exact ⟨by simpa [Call.run, HandleAction] using h1,
        by simpa [Call.run, HandleAction] using h2⟩

theorem runCalls_preserves (calls : List Call) (w : World) (h1 : w.bar.promptType = PT_NONE)
    (h2 : ∀ b ∈ visibleDuringPrompt w.trace, b.promptType ≠ PT_NONE) :
    (runCalls calls w).bar.promptType = PT_NONE ∧
      ∀ b ∈ visibleDuringPrompt (runCalls calls w).trace, b.promptType ≠ PT_NONE := by
  induction calls generalizing w with
  | nil => exact ⟨h1, h2⟩
  | cons c cs ih =>
    have h := Call.run_preserves c w h1 h2
    exact ih (c.run w) h.1 h.2

/-! ## Prompt sessions and the bar state -/

/-- C1: for every starting world, every environment (so every text the input
primitive returns) and every argument list, after each of the four prompt
operations dispatched by `HandleAction` (command, search, reverse-search,
filter) has returned, `promptType` is `PT_NONE`. -/
theorem promptType_none_after_prompt (env : Env) (w : World) (args : List Arg) :
    (HandleAction env { ActionType := ACTION_PROMPT, Args := args } w).2.bar.promptType
        = PT_NONE ∧
    (HandleAction env { ActionType := ACTION_SEARCH_PROMPT, Args := args } w).2.bar.promptType
        = PT_NONE ∧
    (HandleAction env { ActionType := ACTION_REVERSE_SEARCH_PROMPT, Args := args }
        w).2.bar.promptType = PT_NONE ∧
    (HandleAction env { ActionType := ACTION_FILTER_PROMPT, Args := args } w).2.bar.promptType
        = PT_NONE := by
  simp [HandleAction, showCommandPrompt_eq, showSearchPrompt_eq, showFilterPrompt_eq]

/-- C2, as stated, fails: started with `active = true`, each of the four prompt
operations returns with `active` still `true` (here the input primitive
returns "foo"). -/
theorem active_stays_true_after_prompt :
    (HandleAction (fixedEnv (str "foo") [] ([], [], 0)) { ActionType := ACTION_PROMPT }
        { bar := { active := true, promptType := PT_NONE, pendingStatus := [] },
          trace := [] }).2.bar.active = true ∧
    (HandleAction (fixedEnv (str "foo") [] ([], [], 0)) { ActionType := ACTION_SEARCH_PROMPT }
        { bar := { active := true, promptType := PT_NONE, pendingStatus := [] },
          trace := [] }).2.bar.active = true ∧
    (HandleAction (fixedEnv (str "foo") [] ([], [], 0))
        { ActionType := ACTION_REVERSE_SEARCH_PROMPT }
        { bar := { active := true, promptType := PT_NONE, pendingStatus := [] },
          trace := [] }).2.bar.active = true ∧
    (HandleAction (fixedEnv (str "foo") [] ([], [], 0)) { ActionType := ACTION_FILTER_PROMPT }
        { bar := { active := true, promptType := PT_NONE, pendingStatus := [] },
          trace := [] }).2.bar.active = true := by
  decide

/-- C2, amended: after each of the four prompt operations has returned, the
`active` flag has the value it had before the call (so it is `false` exactly
when it was `false` at the start); the prompt operations never write it. -/
theorem active_unchanged_after_prompt (env : Env) (w : World) (args : List Arg) :
    (HandleAction env { ActionType := ACTION_PROMPT, Args := args } w).2.bar.active
        = w.bar.active ∧
    (HandleAction env { ActionType := ACTION_SEARCH_PROMPT, Args := args } w).2.bar.active
        = w.bar.active ∧
    (HandleAction env { ActionType := ACTION_REVERSE_SEARCH_PROMPT, Args := args }
        w).2.bar.active = w.bar.active ∧
    (HandleAction env { ActionType := ACTION_FILTER_PROMPT, Args := args } w).2.bar.active
        = w.bar.active := by
  simp [HandleAction, showCommandPrompt_eq, showSearchPrompt_eq, showFilterPrompt_eq]

/-- C3, as stated, fails: from the initial bar, a single `HandleAction` of the
command prompt exposes, while the input primitive blocks, the bar
`active = false, promptType = PT_COMMAND`, which breaks the invariant. -/
theorem invariant_broken_during_prompt :
    visibleDuringPrompt
        (runCalls [Call.handleAction (fixedEnv (str "foo") [] ([], [], 0))
                    { ActionType := ACTION_PROMPT }] startWorld).trace
      = [{ active := false, promptType := PT_COMMAND, pendingStatus := [] }] ∧
    ¬ Invariant { active := false, promptType := PT_COMMAND, pendingStatus := [] } := by
  decide

/-- C3, amended: the invariant `active = false ⇒ promptType = PT_NONE` holds in
the initial bar and in the bar left by any sequence of completed `HandleAction`
and `OnActiveChange` calls (there `promptType` is `PT_NONE`).  In a bar state
observable while a prompt operation waits on the input primitive `promptType`
is not `PT_NONE`, so the invariant holds there exactly when `active` is
`true`. -/
theorem invariant_between_calls (calls : List Call) :
    (runCalls calls startWorld).bar.promptType = PT_NONE ∧
    Invariant (runCalls calls startWorld).bar ∧
    ∀ b ∈ visibleDuringPrompt (runCalls calls startWorld).trace,
      b.promptType ≠ PT_NONE ∧ (Invariant b ↔ b.active = true) := by
  have h := runCalls_preserves calls startWorld rfl (by simp [startWorld, visibleDuringPrompt])
  refine ⟨h.1, fun _ => h.1, fun b hb => ⟨h.2 b hb, ?_⟩⟩
  have hne := h.2 b hb
  cases hact : b.active <;> simp [Invariant, hact, hne]

/-- Witness for `invariant_between_calls`: activate the bar, then run a search
prompt; the state seen during the prompt satisfies the invariant. -/
theorem invariant_between_calls_witness :
    Invariant (runCalls [Call.onActiveChange true,
        Call.handleAction (fixedEnv (str "foo") [] ([], [], 0))
          { ActionType := ACTION_SEARCH_PROMPT }] startWorld).bar ∧
    Invariant { active := true, promptType := PT_SEARCH, pendingStatus := [] } :=
  ⟨(invariant_between_calls _).2.1,
   ((invariant_between_calls [Call.onActiveChange true,
        Call.handleAction (fixedEnv (str "foo") [] ([], [], 0))
          { ActionType := ACTION_SEARCH_PROMPT }]).2.2
      { active := true, promptType := PT_SEARCH, pendingStatus := [] } (by decide)).2.2 rfl⟩

/-! ## What a prompt session emits -/

/-- C4: the search prompt calls the input primitive once, with framing "/",
and the reverse-search prompt once, with framing "?".  If the primitive
returns the empty string the only action emitted is `ACTION_CLEAR_SEARCH`
without arguments; if it returns a non-empty text `t` the only action emitted
is the prompt's own action type (`ACTION_SEARCH`, respectively
`ACTION_REVERSE_SEARCH`) with argument list `[t]`.  The events listed are all
the calls the operation makes. -/
theorem search_prompt_emits (env : Env) (w : World) (args : List Arg) :
    SEARCH_PROMPT_TEXT = str "/" ∧ REVERSE_SEARCH_PROMPT_TEXT = str "?" ∧
    (env.Prompt SEARCH_PROMPT_TEXT = [] →
      (HandleAction env { ActionType := ACTION_SEARCH_PROMPT, Args := args } w).2.trace =
        w.trace ++ [Event.Prompt SEARCH_PROMPT_TEXT { w.bar with promptType := PT_SEARCH },
                    Event.DoAction { ActionType := ACTION_CLEAR_SEARCH, Args := [] }]) ∧
    (env.Prompt SEARCH_PROMPT_TEXT ≠ [] →
      (HandleAction env { ActionType := ACTION_SEARCH_PROMPT, Args := args } w).2.trace =
        w.trace ++ [Event.Prompt SEARCH_PROMPT_TEXT { w.bar with promptType := PT_SEARCH },
                    Event.DoAction { ActionType := ACTION_SEARCH,
                                     Args := [Arg.string (env.Prompt SEARCH_PROMPT_TEXT)] }]) ∧
    (env.Prompt REVERSE_SEARCH_PROMPT_TEXT = [] →
      (HandleAction env { ActionType := ACTION_REVERSE_SEARCH_PROMPT, Args := args } w).2.trace =
        w.trace ++ [Event.Prompt REVERSE_SEARCH_PROMPT_TEXT { w.bar with promptType := PT_SEARCH },
                    Event.DoAction { ActionType := ACTION_CLEAR_SEARCH, Args := [] }]) ∧
    (env.Prompt REVERSE_SEARCH_PROMPT_TEXT ≠ [] →
      (HandleAction env { ActionType := ACTION_REVERSE_SEARCH_PROMPT, Args := args } w).2.trace =
        w.trace ++ [Event.Prompt REVERSE_SEARCH_PROMPT_TEXT { w.bar with promptType := PT_SEARCH },
                    Event.DoAction { ActionType := ACTION_REVERSE_SEARCH,
                                     Args := [Arg.string (env.Prompt REVERSE_SEARCH_PROMPT_TEXT)] }]) := by
  refine ⟨rfl, rfl, ?_, ?_, ?_, ?_⟩ <;> intro h <;>
    simp [HandleAction, showSearchPrompt_eq, h]

/-- Witness for `search_prompt_emits`: from the initial bar, with the input
primitive returning "foo", the search prompt emits exactly one action,
`ACTION_SEARCH` carrying "foo". -/
theorem search_prompt_emits_witness :
    (fixedEnv (str "foo") [] ([], [], 0)).Prompt SEARCH_PROMPT_TEXT ≠ [] ∧
    (HandleAction (fixedEnv (str "foo") [] ([], [], 0))
        { ActionType := ACTION_SEARCH_PROMPT, Args := [] } startWorld).2.trace =
      startWorld.trace ++
        [Event.Prompt SEARCH_PROMPT_TEXT { startWorld.bar with promptType := PT_SEARCH },
         Event.DoAction { ActionType := ACTION_SEARCH, Args := [Arg.string (str "foo")] }] :=
  ⟨by decide,
   (search_prompt_emits (fixedEnv (str "foo") [] ([], [], 0)) startWorld []).2.2.2.1
     (by decide)⟩

/-- C5: the filter prompt calls the input primitive once, with framing
"query: ".  If the primitive returns the empty string no action is emitted (the
`Prompt` call is the only event); if it returns a non-empty text `t` the only
action emitted is `ACTION_ADD_FILTER` with argument list `[t]`. -/
theorem filter_prompt_emits (env : Env) (w : World) (args : List Arg) :
    FILTER_PROMPT_TEXT = str "query: " ∧
    (env.Prompt FILTER_PROMPT_TEXT = [] →
      (HandleAction env { ActionType := ACTION_FILTER_PROMPT, Args := args } w).2.trace =
        w.trace ++ [Event.Prompt FILTER_PROMPT_TEXT { w.bar with promptType := PT_FILTER }]) ∧
    (env.Prompt FILTER_PROMPT_TEXT ≠ [] →
      (HandleAction env { ActionType := ACTION_FILTER_PROMPT, Args := args } w).2.trace =
        w.trace ++ [Event.Prompt FILTER_PROMPT_TEXT { w.bar with promptType := PT_FILTER },
                    Event.DoAction { ActionType := ACTION_ADD_FILTER,
                                     Args := [Arg.string (env.Prompt FILTER_PROMPT_TEXT)] }]) := by
  refine ⟨rfl, ?_, ?_⟩ <;> intro h <;>
    simp [HandleAction, showFilterPrompt_eq, h]

/-- Witness for `filter_prompt_emits`: from the initial bar, with the input
primitive returning "status:open", the filter prompt emits exactly one action,
`ACTION_ADD_FILTER` carrying "status:open". -/
theorem filter_prompt_emits_witness :
    (fixedEnv (str "status:open") [] ([], [], 0)).Prompt FILTER_PROMPT_TEXT ≠ [] ∧
    (HandleAction (fixedEnv (str "status:open") [] ([], [], 0))
        { ActionType := ACTION_FILTER_PROMPT, Args := [] } startWorld).2.trace =
      startWorld.trace ++
        [Event.Prompt FILTER_PROMPT_TEXT { startWorld.bar with promptType := PT_FILTER },
         Event.DoAction { ActionType := ACTION_ADD_FILTER,
                          Args := [Arg.string (str "status:open")] }] :=
  ⟨by decide,
   (filter_prompt_emits (fixedEnv (str "status:open") [] ([], [], 0)) startWorld []).2.2
     (by decide)⟩

/-- C6: the command prompt calls the input primitive once, with framing ":";
for every returned text, empty or not, it then calls the evaluator once with
exactly that text and passes the evaluator's error list, unchanged, once to
`ReportErrors`.  These three events are all the calls it makes, so no action is
emitted; and `promptType` is `PT_NONE` afterwards whatever the evaluator
returned. -/
theorem command_prompt_evaluates (env : Env) (w : World) (args : List Arg) :
    PROMPT_TEXT = str ":" ∧
    (HandleAction env { ActionType := ACTION_PROMPT, Args := args } w).2.trace =
      w.trace ++ [Event.Prompt PROMPT_TEXT { w.bar with promptType := PT_COMMAND },
                  Event.Evaluate (env.Prompt PROMPT_TEXT),
                  Event.ReportErrors (env.Evaluate (env.Prompt PROMPT_TEXT))] ∧
    (HandleAction env { ActionType := ACTION_PROMPT, Args := args } w).2.bar.promptType
      = PT_NONE ∧
    (HandleAction env { ActionType := ACTION_PROMPT, Args := args } w).1 = none := by
  simp [HandleAction, showCommandPrompt_eq]; rfl

/-! ## Status updates -/

/-- C7: `HandleAction` on an `ACTION_SHOW_STATUS` action returns an error if and
only if the argument list is empty or its first argument is not a string; and
whenever it returns an error the bar (`pendingStatus`, `active`, `promptType`)
is what it was before the call and no redraw is requested: the only calls made
are `Lock` and `Unlock`. -/
theorem showStatus_error_iff (env : Env) (w : World) (args : List Arg) :
    ((HandleAction env { ActionType := ACTION_SHOW_STATUS, Args := args } w).1 ≠ none ↔
      (args = [] ∨ ∃ a rest, args = a :: rest ∧ ∀ s, a ≠ Arg.string s)) ∧
    ((HandleAction env { ActionType := ACTION_SHOW_STATUS, Args := args } w).1 ≠ none →
      (HandleAction env { ActionType := ACTION_SHOW_STATUS, Args := args } w).2.bar = w.bar ∧
      (HandleAction env { ActionType := ACTION_SHOW_STATUS, Args := args } w).2.trace
        = w.trace ++ [Event.Lock, Event.Unlock] ∧
      redrawRequests
          (HandleAction env { ActionType := ACTION_SHOW_STATUS, Args := args } w).2.trace
        = redrawRequests w.trace) := by
  by_cases hs : ∃ status rest, args = Arg.string status :: rest
  · obtain ⟨status, rest, rfl⟩ := hs
    simp [HandleAction_showStatus_text]
  · have hs2 : ∀ status rest, args ≠ Arg.string status :: rest :=
      fun status rest h => hs ⟨status, rest, h⟩
    rw [HandleAction_showStatus_other _ _ _ hs2]
    refine ⟨⟨fun _ => ?_, fun _ => by simp⟩, fun _ => ⟨rfl, rfl, ?_⟩⟩
    · cases args with
      | nil => exact Or.inl rfl
      | cons a rest =>
        exact Or.inr ⟨a, rest, rfl, fun s h => hs2 s rest (by rw [h])⟩
    · simp [redrawRequests, List.count_append]

/-- Witness for `showStatus_error_iff`: a show-status action whose only
argument is the integer 5 returns an error and leaves the bar unchanged. -/
theorem showStatus_error_iff_witness :
    (HandleAction (fixedEnv [] [] ([], [], 0))
        { ActionType := ACTION_SHOW_STATUS, Args := [Arg.int 5] } startWorld).1 ≠ none ∧
    (HandleAction (fixedEnv [] [] ([], [], 0))
        { ActionType := ACTION_SHOW_STATUS, Args := [Arg.int 5] } startWorld).2.bar
      = startWorld.bar :=
  ⟨by decide,
   ((showStatus_error_iff (fixedEnv [] [] ([], [], 0)) startWorld [Arg.int 5]).2
     (by decide)).1⟩

/-- C8: `HandleAction` on an `ACTION_SHOW_STATUS` action whose first argument is
a text `s`, for every prior world and whatever arguments follow: no error is
returned, `pendingStatus` is `s` afterwards, exactly one redraw request is
added, and `active` and `promptType` are unchanged.  Hence after any sequence
of such calls `pendingStatus` is the text of the last one. -/
theorem showStatus_text_sets_pending (env : Env) (w : World) (s : GoString)
    (rest : List Arg) :
    (HandleAction env { ActionType := ACTION_SHOW_STATUS, Args := Arg.string s :: rest } w).1
      = none ∧
    (HandleAction env { ActionType := ACTION_SHOW_STATUS, Args := Arg.string s :: rest }
        w).2.bar.pendingStatus = s ∧
    redrawRequests
        (HandleAction env { ActionType := ACTION_SHOW_STATUS, Args := Arg.string s :: rest }
          w).2.trace = redrawRequests w.trace + 1 ∧
    (HandleAction env { ActionType := ACTION_SHOW_STATUS, Args := Arg.string s :: rest }
        w).2.bar.active = w.bar.active ∧
    (HandleAction env { ActionType := ACTION_SHOW_STATUS, Args := Arg.string s :: rest }
        w).2.bar.promptType = w.bar.promptType ∧
    ∀ earlier : List (GoString × List Arg),
      (showStatusAll env (earlier ++ [(s, rest)]) w).bar.pendingStatus = s := by
  refine ⟨?_, ?_, ?_, ?_, ?_, ?_⟩
  · simp [HandleAction_showStatus_text]
  · simp [HandleAction_showStatus_text]
  · simp [HandleAction_showStatus_text, redrawRequests, List.count_append]
  · simp [HandleAction_showStatus_text]
  · simp [HandleAction_showStatus_text]
  · intro earlier
    simp [showStatusAll, List.foldl_append, HandleAction_showStatus_text]

/-- Witness for `showStatus_text_sets_pending`: three status updates in a row,
the last one "Loading...", leave `pendingStatus` equal to "Loading...". -/
theorem showStatus_text_sets_pending_witness :
    (showStatusAll (fixedEnv [] [] ([], [], 0))
        ([(str "Fetching", []), (str "Done", [Arg.int 1])] ++ [(str "Loading...", [])])
        startWorld).bar.pendingStatus = str "Loading..." :=
  (showStatus_text_sets_pending (fixedEnv [] [] ([], [], 0)) startWorld (str "Loading...")
    []).2.2.2.2.2 [(str "Fetching", []), (str "Done", [Arg.int 1])]

/-! ## Cursor column -/

/-- The loop never lowers `characters`. -/
theorem cursorLoop_ge (RuneWidth : Int → Int) (promptPoint : Int) (runes : List Int)
    (bytes characters : Int) :
    characters ≤ cursorLoop RuneWidth promptPoint runes bytes characters := by
  induction runes generalizing bytes characters with
  | nil => simp [cursorLoop]
  | cons char rest ih =>
    simp only [cursorLoop]
    split
    · exact le_refl _
    · split
      · exact le_trans (by omega) (ih (bytes + RuneLen char) (characters + 1))
      · exact ih (bytes + RuneLen char) characters

/-- The loop result is monotone in the edit byte offset, from any loop state. -/
theorem cursorLoop_mono (RuneWidth : Int → Int) (p q : Int) (hpq : p ≤ q) (runes : List Int)
    (bytes characters : Int) :
    cursorLoop RuneWidth p runes bytes characters ≤
      cursorLoop RuneWidth q runes bytes characters := by
  induction runes generalizing bytes characters with
  | nil => simp [cursorLoop]
  | cons char rest ih =>
    simp only [cursorLoop]
    by_cases hq : bytes + RuneLen char > q
    · have hp : bytes + RuneLen char > p := by omega
      simp [hp, hq]
    · by_cases hp : bytes + RuneLen char > p
      · simp only [hp, hq, if_true, if_false]
        split
        · exact le_trans (by omega)
            (cursorLoop_ge RuneWidth q rest (bytes + RuneLen char) (characters + 1))
        · exact cursorLoop_ge RuneWidth q rest (bytes + RuneLen char) characters
      · simp only [hp, hq, if_false]
        split
        · exact ih (bytes + RuneLen char) (characters + 1)
        · exact ih (bytes + RuneLen char) characters

/-- What `Render` does on an active bar when the line builder is obtained. -/
theorem Render_active (env : Env) (w : World) (hactive : w.bar.active = true)
    (hline : env.LineBuilderErr = none) :
    Render env w =
      (none,
        { bar := w.bar
          trace := w.trace ++
            [Event.Lock, Event.LineBuilder 0 1,
             Event.Append (env.PromptState.1 ++ env.PromptState.2.1),
             Event.SetCursor 0
               (cursorColumn env.RuneWidth env.PromptState.1 env.PromptState.2.1
                 env.PromptState.2.2).toNat,
             Event.Unlock] }) := by
  simp [Render, World.emit, hactive, hline]

/-- C9: for every framing text, every input text (any byte sequence) and every
width function, the cursor column `Render` computes is monotonically
non-decreasing in the edit byte offset: for `p ≤ q` the column for `p` is at
most the column for `q`, both as the Go `int` the loop produces and as the
unsigned value passed to `SetCursor`.  The bound `q ≤ len(input)` of the claim
is not needed. -/
theorem cursorColumn_mono (RuneWidth : Int → Int) (promptText promptInput : GoString)
    (p q : Int) (hpq : p ≤ q) :
    cursorColumn RuneWidth promptText promptInput p ≤
        cursorColumn RuneWidth promptText promptInput q ∧
    (cursorColumn RuneWidth promptText promptInput p).toNat ≤
        (cursorColumn RuneWidth promptText promptInput q).toNat := by
  have h := cursorLoop_mono RuneWidth p q hpq (rangeRunes promptInput) 0
    (promptText.length : Int)
  exact ⟨h, Int.toNat_le_toNat h⟩

/-- Witness for `cursorColumn_mono`: framing ":", input "aé" (three bytes),
offsets 1 and 3. -/
theorem cursorColumn_mono_witness :
    (1 : Int) ≤ 3 ∧
    cursorColumn (fun _ => 1) (str ":") (str "aé") 1 ≤
        cursorColumn (fun _ => 1) (str ":") (str "aé") 3 :=
  ⟨by decide, (cursorColumn_mono (fun _ => 1) (str ":") (str "aé") 1 3 (by decide)).1⟩

/-- For the empty input the column is the byte length of the framing text,
whatever the edit byte offset. -/
theorem cursorColumn_empty_input (RuneWidth : Int → Int) (promptText : GoString)
    (promptPoint : Int) :
    cursorColumn RuneWidth promptText [] promptPoint = (promptText.length : Int) := by
  simp [cursorColumn, rangeRunes, rangeFrom, cursorLoop]

/-- C10, the code at the failing input: with framing "é" (one code point, two
bytes), empty input and edit byte offset 0, `Render` on an active bar sets the
cursor at column 2, the byte length of the framing, while the code point count
of the framing is 1. -/
theorem cursor_starts_at_byte_length (RuneWidth : Int → Int) (bar : StatusBarView)
    (text : GoString → GoString) (evaluate : GoString → List GoError) :
    (Render { Prompt := text, Evaluate := evaluate, PromptState := (str "é", str "", 0),
              RuneWidth := RuneWidth, LineBuilderErr := none }
        { bar := { bar with active := true }, trace := [] }).2.trace
      = [Event.Lock, Event.LineBuilder 0 1, Event.Append (str "é"), Event.SetCursor 0 2,
         Event.Unlock] ∧
    cursorColumn RuneWidth (str "é") (str "") 0 = 2 ∧
    RuneCountInString (str "é") = 1 := by
  refine ⟨?_, ?_, by decide⟩
  · rw [Render_active _ _ rfl rfl]
    have h1 : (str "" : GoString) = [] := by decide
    have h2 : ((str "é" : GoString).length : Int) = 2 := by decide
    simp [h1, cursorColumn_empty_input, h2]
  · have h1 : (str "" : GoString) = [] := by decide
    have h2 : ((str "é" : GoString).length : Int) = 2 := by decide
    rw [h1, cursorColumn_empty_input, h2]

/-! ## UTF-8: decoding what was encoded -/

theorem val_ofNat (a : Nat) : (Fin.ofNat a : Byte).val = a % 256 := rfl

theorem EncodeRune_length_pos (c : Nat) : 0 < (EncodeRune c).length := by
  unfold EncodeRune
  split_ifs <;> simp

theorem RuneLen_EncodeRune (c : Nat) (hc : ValidRune c) :
    RuneLen (c : Int) = ((EncodeRune c).length : Int) := by
  unfold RuneLen EncodeRune ValidRune at *
  split_ifs <;> (try simp) <;> omega

theorem decode1 (s0 : Byte) (rest : GoString) (h : s0.val < 0x80) :
    DecodeRuneInString (s0 :: rest) = ((s0.val : Int), 1) := by
  simp only [DecodeRuneInString]
  rw [if_pos h]

theorem decode2 (s0 s1 : Byte) (rest : GoString) (h0 : 0xC2 ≤ s0.val) (h0' : s0.val < 0xE0)
    (h1 : 0x80 ≤ s1.val) (h1' : s1.val ≤ 0xBF) :
    DecodeRuneInString (s0 :: s1 :: rest) = (((s0.val % 32 * 64 + s1.val % 64 : Nat) : Int), 2) := by
  have hc : isCont s1 = true := by simp [isCont, h1, h1']
  simp only [DecodeRuneInString]
  rw [if_neg (by omega), if_neg (by omega), if_pos h0', if_pos hc]

theorem decode3 (s0 s1 s2 : Byte) (rest : GoString) (h0 : 0xE0 ≤ s0.val) (h0' : s0.val < 0xF0)
    (h1 : (if s0.val = 0xE0 then 0xA0 else 0x80) ≤ s1.val)
    (h1' : s1.val ≤ (if s0.val = 0xED then 0x9F else 0xBF))
    (h2 : 0x80 ≤ s2.val) (h2' : s2.val ≤ 0xBF) :
    DecodeRuneInString (s0 :: s1 :: s2 :: rest) =
      (((s0.val % 16 * 4096 + s1.val % 64 * 64 + s2.val % 64 : Nat) : Int), 3) := by
  have hc : isCont s2 = true := by simp [isCont, h2, h2']
  simp only [DecodeRuneInString]
  rw [if_neg (by omega), if_neg (by omega), if_neg (by omega), if_pos h0',
    if_neg (by omega)]
  simp [hc]

theorem decode4 (s0 s1 s2 s3 : Byte) (rest : GoString) (h0 : 0xF0 ≤ s0.val)
    (h0' : s0.val < 0xF5)
    (h1 : (if s0.val = 0xF0 then 0x90 else 0x80) ≤ s1.val)
    (h1' : s1.val ≤ (if s0.val = 0xF4 then 0x8F else 0xBF))
    (h2 : 0x80 ≤ s2.val) (h2' : s2.val ≤ 0xBF) (h3 : 0x80 ≤ s3.val) (h3' : s3.val ≤ 0xBF) :
    DecodeRuneInString (s0 :: s1 :: s2 :: s3 :: rest) =
      (((s0.val % 8 * 262144 + s1.val % 64 * 4096 + s2.val % 64 * 64 + s3.val % 64 : Nat)
          : Int), 4) := by
  have hc2 : isCont s2 = true := by simp [isCont, h2, h2']
  have hc3 : isCont s3 = true := by simp [isCont, h3, h3']
  simp only [DecodeRuneInString]
  rw [if_neg (by omega), if_neg (by omega), if_neg (by omega), if_neg (by omega), if_pos h0',
    if_neg (by omega)]
  simp [hc2, hc3]

theorem DecodeRuneInString_EncodeRune (c : Nat) (hc : ValidRune c) (rest : GoString) :
    DecodeRuneInString (EncodeRune c ++ rest) = ((c : Int), (EncodeRune c).length) := by
  unfold ValidRune at hc
  unfold EncodeRune
  by_cases h1 : c < 0x80
  · rw [if_pos h1]
    have e : (Fin.ofNat c : Byte).val = c := by rw [val_ofNat]; omega
    rw [List.singleton_append, decode1 _ _ (by rw [e]; exact h1), e]
    rfl
  · rw [if_neg h1]
    by_cases h2 : c < 0x800
    · rw [if_pos h2]
      have e0 : (Fin.ofNat (0xC0 + c / 64) : Byte).val = 0xC0 + c / 64 := by
        rw [val_ofNat]; omega
      have e1 : (Fin.ofNat (0x80 + c % 64) : Byte).val = 0x80 + c % 64 := by
        rw [val_ofNat]; omega
      show DecodeRuneInString (_ :: _ :: rest) = _
      rw [decode2 _ _ _ (by rw [e0]; omega) (by rw [e0]; omega) (by rw [e1]; omega)
        (by rw [e1]; omega), e0, e1]
      have : (0xC0 + c / 64) % 32 * 64 + (0x80 + c % 64) % 64 = c := by omega
      rw [this]; rfl
    · rw [if_neg h2]
      have h3 : ¬ (0xD800 ≤ c ∧ c ≤ 0xDFFF) := by omega
      rw [if_neg h3]
      by_cases h4 : c < 0x10000
      · rw [if_pos h4]
        have e0 : (Fin.ofNat (0xE0 + c / 4096) : Byte).val = 0xE0 + c / 4096 := by
          rw [val_ofNat]; omega
        have e1 : (Fin.ofNat (0x80 + c / 64 % 64) : Byte).val = 0x80 + c / 64 % 64 := by
          rw [val_ofNat]; omega
        have e2 : (Fin.ofNat (0x80 + c % 64) : Byte).val = 0x80 + c % 64 := by
          rw [val_ofNat]; omega
        show DecodeRuneInString (_ :: _ :: _ :: rest) = _
        rw [decode3 _ _ _ _ (by rw [e0]; omega) (by rw [e0]; omega)
          (by rw [e0, e1]; split_ifs <;> omega) (by rw [e0, e1]; split_ifs <;> omega)
          (by rw [e2]; omega) (by rw [e2]; omega), e0, e1, e2]
        have : (0xE0 + c / 4096) % 16 * 4096 + (0x80 + c / 64 % 64) % 64 * 64
            + (0x80 + c % 64) % 64 = c := by omega
        rw [this]; rfl
      · rw [if_neg h4]
        have h5 : c ≤ 0x10FFFF := by omega
        rw [if_pos h5]
        have e0 : (Fin.ofNat (0xF0 + c / 262144) : Byte).val = 0xF0 + c / 262144 := by
          rw [val_ofNat]; omega
        have e1 : (Fin.ofNat (0x80 + c / 4096 % 64) : Byte).val = 0x80 + c / 4096 % 64 := by
          rw [val_ofNat]; omega
        have e2 : (Fin.ofNat (0x80 + c / 64 % 64) : Byte).val = 0x80 + c / 64 % 64 := by
          rw [val_ofNat]; omega
        have e3 : (Fin.ofNat (0x80 + c % 64) : Byte).val = 0x80 + c % 64 := by
          rw [val_ofNat]; omega
        show DecodeRuneInString (_ :: _ :: _ :: _ :: rest) = _
        rw [decode4 _ _ _ _ _ (by rw [e0]; omega) (by rw [e0]; omega)
          (by rw [e0, e1]; split_ifs <;> omega) (by rw [e0, e1]; split_ifs <;> omega)
          (by rw [e2]; omega) (by rw [e2]; omega) (by rw [e3]; omega) (by rw [e3]; omega),
          e0, e1, e2, e3]
        have : (0xF0 + c / 262144) % 8 * 262144 + (0x80 + c / 4096 % 64) % 64 * 4096
            + (0x80 + c / 64 % 64) % 64 * 64 + (0x80 + c % 64) % 64 = c := by omega
        rw [this]; rfl

theorem rangeFrom_skip (pre rest : GoString) :
    rangeFrom (pre ++ rest) pre.length = rangeFrom rest 0 := by
  induction pre with
  | nil => rfl
  | cons b pre ih => simpa [rangeFrom] using ih

theorem rangeRunes_EncodeRune_append (c : Nat) (hc : ValidRune c) (rest : GoString) :
    rangeRunes (EncodeRune c ++ rest) = (c : Int) :: rangeRunes rest := by
  have hd := DecodeRuneInString_EncodeRune c hc rest
  have hpos := EncodeRune_length_pos c
  cases he : EncodeRune c with
  | nil => rw [he] at hpos; simp at hpos
  | cons b tail =>
    rw [he] at hd
    simp only [List.cons_append] at hd ⊢
    simp only [rangeRunes, rangeFrom, hd]
    simp only [List.length_cons, Nat.add_sub_cancel]
    rw [rangeFrom_skip]

theorem rangeRunes_encodeRunes_append (cs : List Nat) (hcs : ∀ c ∈ cs, ValidRune c)
    (rest : GoString) :
    rangeRunes (encodeRunes cs ++ rest) = cs.map (fun (c : Nat) => (c : Int)) ++ rangeRunes rest := by
  induction cs with
  | nil => simp [encodeRunes]
  | cons c cs ih =>
    have h1 : encodeRunes (c :: cs) ++ rest = EncodeRune c ++ (encodeRunes cs ++ rest) := by
      simp [encodeRunes]
    rw [h1, rangeRunes_EncodeRune_append c (hcs c (by simp)),
      ih (fun x hx => hcs x (by simp [hx]))]
    simp

theorem rangeRunes_encodeRunes (cs : List Nat) (hcs : ∀ c ∈ cs, ValidRune c) :
    rangeRunes (encodeRunes cs) = cs.map (fun (c : Nat) => (c : Int)) := by
  have h := rangeRunes_encodeRunes_append cs hcs []
  simpa [rangeRunes, rangeFrom] using h

theorem encodeRunes_cons (c : Nat) (cs : List Nat) :
    encodeRunes (c :: cs) = EncodeRune c ++ encodeRunes cs := by
  simp [encodeRunes]

theorem encodeRunes_append (cs ds : List Nat) :
    encodeRunes (cs ++ ds) = encodeRunes cs ++ encodeRunes ds := by
  simp [encodeRunes]

/-- On valid UTF-8 whose remaining bytes all lie at or before the edit point the
loop never breaks: it adds one for every code point of positive width. -/
theorem cursorLoop_to_end (RuneWidth : Int → Int) (p : Int) (cs : List Nat)
    (hcs : ∀ c ∈ cs, ValidRune c) (bytes characters : Int)
    (hp : bytes + ((encodeRunes cs).length : Int) ≤ p) :
    cursorLoop RuneWidth p (cs.map (fun (c : Nat) => (c : Int))) bytes characters =
      characters + ((cs.filter (fun (c : Nat) => decide (RuneWidth (c : Int) > 0))).length : Int) := by
  induction cs generalizing bytes characters with
  | nil => simp [cursorLoop]
  | cons c cs ih =>
    have hlen := RuneLen_EncodeRune c (hcs c (by simp))
    rw [encodeRunes_cons, List.length_append] at hp
    push_cast at hp
    have hnb : ¬ (bytes + RuneLen (c : Int) > p) := by
      have := Int.natCast_nonneg (encodeRunes cs).length
      omega
    have hp2 : bytes + RuneLen (c : Int) + ((encodeRunes cs).length : Int) ≤ p := by omega
    simp only [List.map_cons, cursorLoop, hnb, if_false]
    by_cases hw : RuneWidth (c : Int) > 0
    · rw [if_pos hw, ih (fun x hx => hcs x (by simp [hx])) _ _ hp2]
      simp [List.filter_cons, hw]
      omega
    · rw [if_neg hw, ih (fun x hx => hcs x (by simp [hx])) _ _ hp2]
      simp [List.filter_cons, hw]

theorem cursorColumn_to_end (RuneWidth : Int → Int) (promptText : GoString) (cs : List Nat)
    (hcs : ∀ c ∈ cs, ValidRune c) (p : Int) (hp : ((encodeRunes cs).length : Int) ≤ p) :
    cursorColumn RuneWidth promptText (encodeRunes cs) p =
      (promptText.length : Int) +
        ((cs.filter (fun (c : Nat) => decide (RuneWidth (c : Int) > 0))).length : Int) := by
  unfold cursorColumn
  rw [rangeRunes_encodeRunes cs hcs]
  exact cursorLoop_to_end RuneWidth p cs hcs 0 _ (by omega)

theorem withEnds_ge (pos : Nat) (cs : List Nat) :
    ∀ ce ∈ withEnds pos cs, pos ≤ ce.2 := by
  induction cs generalizing pos with
  | nil => simp [withEnds]
  | cons c cs ih =>
    intro ce hce
    simp only [withEnds, List.mem_cons] at hce
    rcases hce with rfl | hce
    · simp
    · have := ih _ ce hce
      omega

theorem withEnds_length (pos : Nat) (cs : List Nat) : (withEnds pos cs).length = cs.length := by
  induction cs generalizing pos with
  | nil => simp [withEnds]
  | cons c cs ih => simp [withEnds, ih]

/-- The ends of the code points of `pre ++ c :: post` lie at or before the
first byte of `c`, or at or after the end of `c`. -/
theorem withEnds_gap (pos : Nat) (pre : List Nat) (c : Nat) (post : List Nat) :
    ∀ ce ∈ withEnds pos (pre ++ c :: post),
      ce.2 ≤ pos + (encodeRunes pre).length ∨
        pos + (encodeRunes pre).length + (EncodeRune c).length ≤ ce.2 := by
  induction pre generalizing pos with
  | nil =>
    intro ce hce
    simp only [List.nil_append, withEnds, List.mem_cons] at hce
    rcases hce with rfl | hce
    · right; simp [encodeRunes]
    · right
      have := withEnds_ge _ _ ce hce
      simp [encodeRunes]; omega
  | cons d pre ih =>
    intro ce hce
    simp only [List.cons_append, withEnds, List.mem_cons] at hce
    rw [encodeRunes_cons, List.length_append]
    rcases hce with rfl | hce
    · left; simp
    · have := ih _ ce hce
      omega

/-- On valid UTF-8 the loop computes the reference count, from any position. -/
theorem cursorLoop_reference (RuneWidth : Int → Int) (p : Int) (cs : List Nat)
    (hcs : ∀ c ∈ cs, ValidRune c) (pos : Nat) (characters : Int) :
    cursorLoop RuneWidth p (cs.map (fun (c : Nat) => (c : Int))) (pos : Int) characters =
      characters +
        (((withEnds pos cs).filter
            (fun ce => decide (RuneWidth (ce.1 : Int) > 0) && decide ((ce.2 : Int) ≤ p))).length
          : Int) := by
  induction cs generalizing pos characters with
  | nil => simp [cursorLoop, withEnds]
  | cons c cs ih =>
    have hlen := RuneLen_EncodeRune c (hcs c (by simp))
    have hcast : (pos : Int) + RuneLen (c : Int) = ((pos + (EncodeRune c).length : Nat) : Int) := by
      rw [hlen]; push_cast; rfl
    simp only [List.map_cons, cursorLoop, withEnds]
    rw [hcast]
    by_cases hb : ((pos + (EncodeRune c).length : Nat) : Int) > p
    · rw [if_pos hb]
      have hall : ∀ ce ∈ (c, pos + (EncodeRune c).length) ::
          withEnds (pos + (EncodeRune c).length) cs,
          ¬ ((decide (RuneWidth (ce.1 : Int) > 0) && decide ((ce.2 : Int) ≤ p)) = true) := by
        intro ce hce
        have hge : pos + (EncodeRune c).length ≤ ce.2 := by
          simp only [List.mem_cons] at hce
          rcases hce with rfl | hce
          · exact le_refl _
          · exact withEnds_ge _ _ ce hce
        have : ¬ ((ce.2 : Int) ≤ p) := by omega
        simp [this]
      rw [List.filter_eq_nil_iff.mpr hall]
      simp
    · rw [if_neg hb]
      have hle : ((pos + (EncodeRune c).length : Nat) : Int) ≤ p := by omega
      by_cases hw : RuneWidth (c : Int) > 0
      · have hle2 : (pos : Int) + ((EncodeRune c).length : Int) ≤ p := by
          push_cast at hle; exact hle
        rw [if_pos hw, ih (fun x hx => hcs x (by simp [hx]))]
        simp [List.filter_cons, hw, hle2]
        omega
      · rw [if_neg hw, ih (fun x hx => hcs x (by simp [hx]))]
        simp [List.filter_cons, hw]

theorem cursorColumn_eq_referenceColumn (RuneWidth : Int → Int) (promptText : GoString)
    (cs : List Nat) (hcs : ∀ c ∈ cs, ValidRune c) (p : Int) :
    cursorColumn RuneWidth promptText (encodeRunes cs) p =
      referenceColumn RuneWidth promptText cs p := by
  unfold cursorColumn referenceColumn
  rw [rangeRunes_encodeRunes cs hcs]
  exact cursorLoop_reference RuneWidth p cs hcs 0 _

/-- A rune that `utf8.RuneLen` accepts. -/
theorem RuneLen_pos_of_scalar (r : Int) (h0 : 0 ≤ r) (h1 : r ≤ 0x10FFFF)
    (h2 : ¬ (0xD800 ≤ r ∧ r ≤ 0xDFFF)) : 0 < RuneLen r := by
  unfold RuneLen
  split_ifs <;> omega

/-- Every rune a `range` loop yields is a scalar value. -/
theorem DecodeRuneInString_scalar (s : GoString) :
    0 ≤ (DecodeRuneInString s).1 ∧ (DecodeRuneInString s).1 ≤ 0x10FFFF ∧
      ¬ (0xD800 ≤ (DecodeRuneInString s).1 ∧ (DecodeRuneInString s).1 ≤ 0xDFFF) := by
  unfold DecodeRuneInString
  split
  · simp [RuneError]
  · rename_i s0 rest
    have hs0 := s0.isLt
    dsimp only
    split_ifs <;> (try split) <;> (try split_ifs) <;> simp [RuneError] <;> omega

/-- With the edit point at byte 0 the loop stops at the first rune, whatever
the input bytes are. -/
theorem cursorColumn_zero (RuneWidth : Int → Int) (promptText promptInput : GoString) :
    cursorColumn RuneWidth promptText promptInput 0 = (promptText.length : Int) := by
  unfold cursorColumn rangeRunes
  cases promptInput with
  | nil => simp [rangeFrom, cursorLoop]
  | cons b rest =>
    have h := DecodeRuneInString_scalar (b :: rest)
    have hpos := RuneLen_pos_of_scalar _ h.1 h.2.1 h.2.2
    simp only [rangeFrom, cursorLoop]
    rw [if_pos (by omega)]

/-! ## Cursor column on valid UTF-8 -/

/-- C11: for every framing text `f`, every valid UTF-8 input (the encoding of
scalar values `cs`) and every scalar value `c`, with the edit point at the end
of the extended input: when the display width of `c` is 0 the column for
`cs ++ [c]` equals the column for `cs`; when the display width of `c` is 2 the
column for `cs ++ [c]` is the column for `cs` plus exactly 1. -/
theorem cursor_after_appended_rune (RuneWidth : Int → Int) (f : GoString) (cs : List Nat)
    (c : Nat) (hcs : ∀ x ∈ cs, ValidRune x) (hc : ValidRune c) :
    (RuneWidth (c : Int) = 0 →
      cursorColumn RuneWidth f (encodeRunes (cs ++ [c]))
          ((encodeRunes (cs ++ [c])).length : Int) =
        cursorColumn RuneWidth f (encodeRunes cs) ((encodeRunes cs).length : Int)) ∧
    (RuneWidth (c : Int) = 2 →
      cursorColumn RuneWidth f (encodeRunes (cs ++ [c]))
          ((encodeRunes (cs ++ [c])).length : Int) =
        cursorColumn RuneWidth f (encodeRunes cs) ((encodeRunes cs).length : Int) + 1) := by
  have hall : ∀ x ∈ cs ++ [c], ValidRune x := by
    intro x hx
    rcases List.mem_append.mp hx with h | h
    · exact hcs x h
    · simp at h; rw [h]; exact hc
  rw [cursorColumn_to_end RuneWidth f (cs ++ [c]) hall _ (le_refl _),
    cursorColumn_to_end RuneWidth f cs hcs _ (le_refl _)]
  constructor <;> intro hw
  · simp [List.filter_append, List.filter_cons, hw]
  · simp [List.filter_append, List.filter_cons, hw]
    omega

/-- Witness for `cursor_after_appended_rune`: after "e", the combining accent
`U+0301` (width 0) leaves the column where it was. -/
theorem cursor_after_appended_rune_witness :
    sampleWidth ((0x301 : Nat) : Int) = 0 ∧
    cursorColumn sampleWidth (str ":") (encodeRunes ([0x65] ++ [0x301]))
        ((encodeRunes ([0x65] ++ [0x301])).length : Int) =
      cursorColumn sampleWidth (str ":") (encodeRunes [0x65])
        ((encodeRunes [0x65]).length : Int) :=
  ⟨by decide,
   (cursor_after_appended_rune sampleWidth (str ":") [0x65] 0x301 (by decide) (by decide)).1
     (by decide)⟩

/-- On valid UTF-8, an edit byte offset beyond the end of the input gives the
framing length plus the character count of the input. -/
theorem cursorColumn_beyond_end_valid (RuneWidth : Int → Int) (f : GoString) (cs : List Nat)
    (hcs : ∀ x ∈ cs, ValidRune x) (p : Int) (hp : ((encodeRunes cs).length : Int) < p) :
    cursorColumn RuneWidth f (encodeRunes cs) p =
      (f.length : Int) + (characterCount RuneWidth (encodeRunes cs) : Int) := by
  rw [cursorColumn_to_end RuneWidth f cs hcs p (le_of_lt hp)]
  unfold characterCount
  rw [rangeRunes_encodeRunes cs hcs, List.filter_map, List.length_map]
  rfl

/-- C12, the code at a failing input: with framing ":", the two-byte input
`FF FF` (invalid UTF-8, two runes `U+FFFD` of positive width) and edit byte
offset 3, which is beyond the byte length 2, the loop counts 3 bytes for the
first rune and 6 for the second, so it stops after one character: the column
is 2, while the framing length plus the character count of the input is 3. -/
theorem cursor_beyond_end_invalid_utf8 (RuneWidth : Int → Int)
    (hw : RuneWidth 0xFFFD > 0) :
    ((([0xFF, 0xFF] : GoString).length : Int) < 3) ∧
    cursorColumn RuneWidth (str ":") [0xFF, 0xFF] 3 = 2 ∧
    ((str ":").length : Int) + (characterCount RuneWidth [0xFF, 0xFF] : Int) = 3 := by
  have h1 : rangeRunes ([0xFF, 0xFF] : GoString) = [0xFFFD, 0xFFFD] := by decide
  have h2 : ((str ":").length : Int) = 1 := by decide
  refine ⟨by decide, ?_, ?_⟩
  · unfold cursorColumn
    rw [h1, h2]
    have hl : RuneLen 0xFFFD = 3 := by decide
    simp [cursorLoop, hl, hw]
  · unfold characterCount
    rw [h1, h2]
    simp [List.filter_cons, hw]

/-- Witness for `cursor_beyond_end_invalid_utf8`, with the sample widths (the
replacement character has width 1). -/
theorem cursor_beyond_end_invalid_utf8_witness :
    sampleWidth 0xFFFD > 0 ∧ cursorColumn sampleWidth (str ":") [0xFF, 0xFF] 3 = 2 :=
  ⟨by decide, (cursor_beyond_end_invalid_utf8 sampleWidth (by decide)).2.1⟩

/-! ## Rendering -/

/-- What `RenderHelpBar` does, by prompt type. -/
theorem RenderHelpBar_eq (w : World) :
    RenderHelpBar w =
      (none,
        { bar := w.bar
          trace := w.trace ++
            (match w.bar.promptType with
             | PT_COMMAND =>
               [Event.AppendWithStyle CMP_HELPBARVIEW_SPECIAL (str "Enter a command")]
             | PT_SEARCH =>
               [Event.AppendWithStyle CMP_HELPBARVIEW_SPECIAL (str "Enter a regex pattern")]
             | PT_FILTER =>
               [Event.AppendWithStyle CMP_HELPBARVIEW_SPECIAL (str "Enter a filter query")]
             | PT_NONE => []) }) := by
  have h1 : str "Enter a command" ≠ [] := by decide
  have h2 : str "Enter a regex pattern" ≠ [] := by decide
  have h3 : str "Enter a filter query" ≠ [] := by decide
  have h4 : str "" = [] := by decide
  obtain ⟨⟨a, pt, ps⟩, tr⟩ := w
  cases pt <;> simp [RenderHelpBar, World.emit, h1, h2, h3, h4]

/-- C13: the help line depends only on the prompt in progress.  On the bar
that is visible while a command prompt is open `RenderHelpBar` appends exactly
"Enter a command"; while a search or a reverse-search prompt is open, exactly
"Enter a regex pattern"; while a filter prompt is open, exactly "Enter a filter
query"; and when `promptType` is `PT_NONE` it makes no call at all.  It never
returns an error and never changes the bar. -/
theorem help_line_by_prompt (env : Env) (w : World) (args : List Arg) (trace : List Event) :
    -- the bar visible while each prompt is open
    visibleDuringPrompt (HandleAction env { ActionType := ACTION_PROMPT, Args := args } w).2.trace
      = visibleDuringPrompt w.trace ++ [{ w.bar with promptType := PT_COMMAND }] ∧
    visibleDuringPrompt
        (HandleAction env { ActionType := ACTION_SEARCH_PROMPT, Args := args } w).2.trace
      = visibleDuringPrompt w.trace ++ [{ w.bar with promptType := PT_SEARCH }] ∧
    visibleDuringPrompt
        (HandleAction env { ActionType := ACTION_REVERSE_SEARCH_PROMPT, Args := args } w).2.trace
      = visibleDuringPrompt w.trace ++ [{ w.bar with promptType := PT_SEARCH }] ∧
    visibleDuringPrompt
        (HandleAction env { ActionType := ACTION_FILTER_PROMPT, Args := args } w).2.trace
      = visibleDuringPrompt w.trace ++ [{ w.bar with promptType := PT_FILTER }] ∧
    -- the help line on such a bar
    RenderHelpBar { bar := { w.bar with promptType := PT_COMMAND }, trace := trace } =
      (none, { bar := { w.bar with promptType := PT_COMMAND },
               trace := trace ++
                 [Event.AppendWithStyle CMP_HELPBARVIEW_SPECIAL (str "Enter a command")] }) ∧
    RenderHelpBar { bar := { w.bar with promptType := PT_SEARCH }, trace := trace } =
      (none, { bar := { w.bar with promptType := PT_SEARCH },
               trace := trace ++
                 [Event.AppendWithStyle CMP_HELPBARVIEW_SPECIAL
                    (str "Enter a regex pattern")] }) ∧
    RenderHelpBar { bar := { w.bar with promptType := PT_FILTER }, trace := trace } =
      (none, { bar := { w.bar with promptType := PT_FILTER },
               trace := trace ++
                 [Event.AppendWithStyle CMP_HELPBARVIEW_SPECIAL
                    (str "Enter a filter query")] }) ∧
    RenderHelpBar { bar := { w.bar with promptType := PT_NONE }, trace := trace } =
      (none, { bar := { w.bar with promptType := PT_NONE }, trace := trace }) ∧
    -- no error and no change of the bar, on any world
    (RenderHelpBar w).1 = none ∧ (RenderHelpBar w).2.bar = w.bar := by
  refine ⟨?_, ?_, ?_, ?_, ?_, ?_, ?_, ?_, ?_, ?_⟩
  · simp [HandleAction, showCommandPrompt_eq, visibleDuringPrompt_append, visibleDuringPrompt]
  · simp [HandleAction, showSearchPrompt_eq, visibleDuringPrompt_append, visibleDuringPrompt]
  · simp [HandleAction, showSearchPrompt_eq, visibleDuringPrompt_append, visibleDuringPrompt]
  · by_cases h : env.Prompt FILTER_PROMPT_TEXT = [] <;>
      simp [HandleAction, showFilterPrompt_eq, visibleDuringPrompt_append, visibleDuringPrompt, h]
  · rw [RenderHelpBar_eq]
  · rw [RenderHelpBar_eq]
  · rw [RenderHelpBar_eq]
  · rw [RenderHelpBar_eq]; simp
  · rw [RenderHelpBar_eq]
  · rw [RenderHelpBar_eq]

/-- What `Render` does on a bar that is not active when the line builder is
obtained. -/
theorem Render_inactive (env : Env) (w : World) (hactive : w.bar.active = false)
    (hline : env.LineBuilderErr = none) :
    Render env w =
      (none,
        { bar := w.bar
          trace := w.trace ++
            [Event.Lock, Event.LineBuilder 0 1,
             Event.Append (str " " ++ w.bar.pendingStatus),
             Event.ApplyStyle CMP_STATUSBARVIEW_NORMAL,
             Event.Unlock] }) := by
  simp [Render, World.emit, hactive, hline]

/-- What `Render` does when the line builder cannot be obtained. -/
theorem Render_error (env : Env) (w : World) (err : GoError)
    (hline : env.LineBuilderErr = some err) :
    Render env w =
      (some err,
        { bar := w.bar
          trace := w.trace ++ [Event.Lock, Event.LineBuilder 0 1, Event.Unlock] }) := by
  simp [Render, World.emit, hline]

/-- The value of `characters` is never negative, so the conversion to `uint`
at the `SetCursor` call is exact. -/
theorem cursorColumn_nonneg (RuneWidth : Int → Int) (promptText promptInput : GoString)
    (promptPoint : Int) : 0 ≤ cursorColumn RuneWidth promptText promptInput promptPoint :=
  le_trans (Int.natCast_nonneg promptText.length)
    (cursorLoop_ge RuneWidth promptPoint (rangeRunes promptInput) 0 _)

/-- C14: main line of `Render` when the line builder is obtained.  If `active`
is false the only text appended is one space followed by `pendingStatus`, the
normal status-bar style is applied and the cursor is not set.  If `active` is
true the only text appended is the framing text followed by the current input
text, the cursor is set exactly once, on row 0 at the computed column, and the
normal status style is not applied.  The event lists are all the calls made. -/
theorem Render_main_line (env : Env) (w : World) (hline : env.LineBuilderErr = none) :
    (w.bar.active = false →
      Render env w =
        (none,
          { bar := w.bar
            trace := w.trace ++
              [Event.Lock, Event.LineBuilder 0 1,
               Event.Append (str " " ++ w.bar.pendingStatus),
               Event.ApplyStyle CMP_STATUSBARVIEW_NORMAL,
               Event.Unlock] })) ∧
    (w.bar.active = true →
      Render env w =
        (none,
          { bar := w.bar
            trace := w.trace ++
              [Event.Lock, Event.LineBuilder 0 1,
               Event.Append (env.PromptState.1 ++ env.PromptState.2.1),
               Event.SetCursor 0
                 (cursorColumn env.RuneWidth env.PromptState.1 env.PromptState.2.1
                   env.PromptState.2.2).toNat,
               Event.Unlock] }) ∧
      ((cursorColumn env.RuneWidth env.PromptState.1 env.PromptState.2.1
          env.PromptState.2.2).toNat : Int) =
        cursorColumn env.RuneWidth env.PromptState.1 env.PromptState.2.1
          env.PromptState.2.2) :=
  ⟨fun h => Render_inactive env w h hline,
   fun h => ⟨Render_active env w h hline, Int.toNat_of_nonneg (cursorColumn_nonneg _ _ _ _)⟩⟩

/-- Witness for `Render_main_line`: the initial bar, not active, renders one
space followed by the empty pending status. -/
theorem Render_main_line_witness :
    (fixedEnv [] [] (str ":", str "ab", 1)).LineBuilderErr = none ∧
    Render (fixedEnv [] [] (str ":", str "ab", 1)) startWorld =
      (none,
        { bar := startWorld.bar
          trace := startWorld.trace ++
            [Event.Lock, Event.LineBuilder 0 1,
             Event.Append (str " " ++ startWorld.bar.pendingStatus),
             Event.ApplyStyle CMP_STATUSBARVIEW_NORMAL,
             Event.Unlock] }) :=
  ⟨rfl, (Render_main_line (fixedEnv [] [] (str ":", str "ab", 1)) startWorld rfl).1 rfl⟩

/-- C15: for every list of property/value pairs `RenderStatusProperties` makes
one `Append` call per pair, in list order, with exactly the text
"<property>: <value>" followed by five spaces, and no call for the empty list;
the bar is untouched, and the total text appended is the in-order
concatenation of those pieces. -/
theorem RenderStatusProperties_appends (propertyValues : List PropertyValue) (w : World) :
    (RenderStatusProperties propertyValues w).trace =
      w.trace ++ propertyValues.map (fun propValue =>
        Event.Append (propValue.Property ++ str ": " ++ propValue.Value ++ str "     ")) ∧
    (RenderStatusProperties propertyValues w).bar = w.bar ∧
    appendedText (RenderStatusProperties propertyValues w).trace =
      appendedText w.trace ++ propertyValues.flatMap (fun propValue =>
        propValue.Property ++ str ": " ++ propValue.Value ++ str "     ") ∧
    RenderStatusProperties [] w = w := by
  have key : ∀ (pvs : List PropertyValue) (w : World),
      RenderStatusProperties pvs w =
        { bar := w.bar
          trace := w.trace ++ pvs.map (fun propValue =>
            Event.Append (propValue.Property ++ str ": " ++ propValue.Value ++ str "     ")) } := by
    intro pvs
    induction pvs with
    | nil => intro w; simp [RenderStatusProperties]
    | cons pv pvs ih =>
      intro w
      have h := ih (w.emit (Event.Append (pv.Property ++ str ": " ++ pv.Value ++ str "     ")))
      simp only [RenderStatusProperties, List.foldl_cons] at h ⊢
      rw [h]
      simp [World.emit]
  refine ⟨by rw [key], by rw [key], ?_, rfl⟩
  rw [key]
  simp only [appendedText, List.flatMap_append, List.flatMap_map]

/-- Witness for `RenderStatusProperties_appends`: the pairs Branch/main and
Commits/12 give the text "Branch: main     Commits: 12     ". -/
theorem RenderStatusProperties_appends_witness :
    appendedText (RenderStatusProperties
        [{ Property := str "Branch", Value := str "main" },
         { Property := str "Commits", Value := str "12" }] startWorld).trace
      = str "Branch: main     Commits: 12     " :=
  ((RenderStatusProperties_appends
      [{ Property := str "Branch", Value := str "main" },
       { Property := str "Commits", Value := str "12" }] startWorld).2.2.1).trans (by decide)

/-! ## Cancellation and error exits -/

/-- C16, as stated, fails: the input primitive hands back only a text, so a
cancelled session can surface only as a returned text; when it returns the
empty text the command prompt still calls the evaluator, once, with the empty
text. -/
theorem command_prompt_evaluates_empty_text :
    (HandleAction (fixedEnv (str "") [] ([], [], 0)) { ActionType := ACTION_PROMPT }
        startWorld).2.trace
      = [Event.Prompt PROMPT_TEXT { active := false, promptType := PT_COMMAND,
                                    pendingStatus := [] },
         Event.Evaluate [], Event.ReportErrors []] ∧
    evaluatorCalls
        (HandleAction (fixedEnv (str "") [] ([], [], 0)) { ActionType := ACTION_PROMPT }
          startWorld).2.trace = [[]] := by
  decide

/-- C16, amended: the command prompt has no cancellation path.  Whatever
text the input primitive returns, the empty text included, the evaluator is
called exactly once more, with that text. -/
theorem command_prompt_always_evaluates (env : Env) (w : World) (args : List Arg) :
    evaluatorCalls (HandleAction env { ActionType := ACTION_PROMPT, Args := args } w).2.trace
      = evaluatorCalls w.trace ++ [env.Prompt PROMPT_TEXT] := by
  simp [HandleAction, showCommandPrompt_eq, evaluatorCalls, List.filterMap_append]

/-- C17, as stated, fails: when the render window cannot supply the line
builder, `Render` returns that error. -/
theorem Render_returns_line_builder_error :
    (Render { Prompt := fun _ => [], Evaluate := fun _ => [], PromptState := ([], [], 0),
              RuneWidth := sampleWidth,
              LineBuilderErr := some (GoError.external "row out of range") }
        startWorld).1 = some (GoError.external "row out of range") := by
  decide

/-- C17, amended: `Render` returns an error exactly when `win.LineBuilder(0, 1)`
returns one, and then it returns that error and draws nothing (the only calls
are `Lock`, `LineBuilder`, `Unlock`); when the line builder is obtained it
returns no error.  The cursor computation itself has no error exit: for any
input text and any edit byte offset it yields a non-negative column. -/
theorem Render_error_only_from_line_builder (env : Env) (w : World) :
    (Render env w).1 = env.LineBuilderErr ∧
    (∀ err, env.LineBuilderErr = some err →
      (Render env w).2.trace = w.trace ++ [Event.Lock, Event.LineBuilder 0 1, Event.Unlock]) ∧
    (Render env w).2.bar = w.bar ∧
    ∀ (promptText promptInput : GoString) (promptPoint : Int),
      0 ≤ cursorColumn env.RuneWidth promptText promptInput promptPoint := by
  refine ⟨?_, ?_, ?_, fun f s p => cursorColumn_nonneg _ f s p⟩
  · cases hl : env.LineBuilderErr with
    | some err => rw [Render_error env w err hl]
    | none =>
      cases ha : w.bar.active with
      | true => rw [Render_active env w ha hl]
      | false => rw [Render_inactive env w ha hl]
  · intro err hl
    rw [Render_error env w err hl]
  · cases hl : env.LineBuilderErr with
    | some err => rw [Render_error env w err hl]
    | none =>
      cases ha : w.bar.active with
      | true => rw [Render_active env w ha hl]
      | false => rw [Render_inactive env w ha hl]

/-- Witness for `Render_error_only_from_line_builder`: a window without rows. -/
theorem Render_error_only_from_line_builder_witness :
    (Render { Prompt := fun _ => [], Evaluate := fun _ => [], PromptState := ([], [], 0),
              RuneWidth := sampleWidth,
              LineBuilderErr := some (GoError.external "row out of range") }
        startWorld).2.trace
      = startWorld.trace ++ [Event.Lock, Event.LineBuilder 0 1, Event.Unlock] :=
  (Render_error_only_from_line_builder
      { Prompt := fun _ => [], Evaluate := fun _ => [], PromptState := ([], [], 0),
        RuneWidth := sampleWidth,
        LineBuilderErr := some (GoError.external "row out of range") }
      startWorld).2.1 (GoError.external "row out of range") rfl

/-! ## Lock discipline and frame -/

/-- C18, the code on the lock: the status update, `OnActiveChange` and `Render`
each take the lock once, but the four prompt operations take it not at all
although they write `promptType` (the bar visible during the prompt carries the
new prompt type, the bar left behind carries `PT_NONE`), and `RenderHelpBar`
reads `promptType` (its output differs between `PT_COMMAND` and `PT_NONE`)
without taking the lock either. -/
theorem prompt_type_accessed_without_lock (env : Env) (w : World) (args : List Arg)
    (status : GoString) (active : Bool) :
    -- the siblings take the lock
    lockCalls (HandleAction env { ActionType := ACTION_SHOW_STATUS,
                                  Args := Arg.string status :: args } w).2.trace
      = lockCalls w.trace + 1 ∧
    lockCalls (OnActiveChange active w).trace = lockCalls w.trace + 1 ∧
    lockCalls (Render env w).2.trace = lockCalls w.trace + 1 ∧
    -- the prompt operations do not, and write promptType twice
    lockCalls (HandleAction env { ActionType := ACTION_PROMPT, Args := args } w).2.trace
      = lockCalls w.trace ∧
    lockCalls (HandleAction env { ActionType := ACTION_SEARCH_PROMPT, Args := args } w).2.trace
      = lockCalls w.trace ∧
    lockCalls
        (HandleAction env { ActionType := ACTION_REVERSE_SEARCH_PROMPT, Args := args } w).2.trace
      = lockCalls w.trace ∧
    lockCalls (HandleAction env { ActionType := ACTION_FILTER_PROMPT, Args := args } w).2.trace
      = lockCalls w.trace ∧
    visibleDuringPrompt
        (HandleAction env { ActionType := ACTION_PROMPT, Args := args } w).2.trace
      = visibleDuringPrompt w.trace ++ [{ w.bar with promptType := PT_COMMAND }] ∧
    (HandleAction env { ActionType := ACTION_PROMPT, Args := args } w).2.bar.promptType
      = PT_NONE ∧
    -- RenderHelpBar does not, and reads promptType
    lockCalls (RenderHelpBar w).2.trace = lockCalls w.trace ∧
    (RenderHelpBar { bar := { w.bar with promptType := PT_COMMAND }, trace := [] }).2.trace ≠
      (RenderHelpBar { bar := { w.bar with promptType := PT_NONE }, trace := [] }).2.trace := by
  refine ⟨?_, ?_, ?_, ?_, ?_, ?_, ?_, ?_, ?_, ?_, ?_⟩
  · simp [HandleAction_showStatus_text, lockCalls, List.count_append]
  · simp [OnActiveChange, World.emit, World.setActive, lockCalls, List.count_append]
  · cases hl : env.LineBuilderErr with
    | some err => simp [Render_error env w err hl, lockCalls, List.count_append]
    | none =>
      cases ha : w.bar.active with
      | true => simp [Render_active env w ha hl, lockCalls, List.count_append]
      | false => simp [Render_inactive env w ha hl, lockCalls, List.count_append]
  · simp [HandleAction, showCommandPrompt_eq, lockCalls, List.count_append]
  · simp [HandleAction, showSearchPrompt_eq, lockCalls, List.count_append]
  · simp [HandleAction, showSearchPrompt_eq, lockCalls, List.count_append]
  · by_cases h : env.Prompt FILTER_PROMPT_TEXT = [] <;>
      simp [HandleAction, showFilterPrompt_eq, lockCalls, List.count_append, h]
  · simp [HandleAction, showCommandPrompt_eq, visibleDuringPrompt_append, visibleDuringPrompt]
  · simp [HandleAction, showCommandPrompt_eq]
  · obtain ⟨⟨a, pt, ps⟩, tr⟩ := w
    cases pt <;> simp [RenderHelpBar_eq, lockCalls, List.count_append]
  · simp [RenderHelpBar_eq]

/-- C20: frame of the prompt operations.  For every starting world and every
text the input primitive returns, each of the four prompt operations leaves
`active` and `pendingStatus` as they were, both in the bar visible while the
input primitive is awaited and in the bar left after the operation returns:
these bars are the starting bar with only `promptType` replaced. -/
theorem prompt_frame (env : Env) (w : World) (args : List Arg) :
    ((HandleAction env { ActionType := ACTION_PROMPT, Args := args } w).2.bar
        = { w.bar with promptType := PT_NONE } ∧
      visibleDuringPrompt
          (HandleAction env { ActionType := ACTION_PROMPT, Args := args } w).2.trace
        = visibleDuringPrompt w.trace ++ [{ w.bar with promptType := PT_COMMAND }]) ∧
    ((HandleAction env { ActionType := ACTION_SEARCH_PROMPT, Args := args } w).2.bar
        = { w.bar with promptType := PT_NONE } ∧
      visibleDuringPrompt
          (HandleAction env { ActionType := ACTION_SEARCH_PROMPT, Args := args } w).2.trace
        = visibleDuringPrompt w.trace ++ [{ w.bar with promptType := PT_SEARCH }]) ∧
    ((HandleAction env { ActionType := ACTION_REVERSE_SEARCH_PROMPT, Args := args } w).2.bar
        = { w.bar with promptType := PT_NONE } ∧
      visibleDuringPrompt
          (HandleAction env { ActionType := ACTION_REVERSE_SEARCH_PROMPT, Args := args }
            w).2.trace
        = visibleDuringPrompt w.trace ++ [{ w.bar with promptType := PT_SEARCH }]) ∧
    ((HandleAction env { ActionType := ACTION_FILTER_PROMPT, Args := args } w).2.bar
        = { w.bar with promptType := PT_NONE } ∧
      visibleDuringPrompt
          (HandleAction env { ActionType := ACTION_FILTER_PROMPT, Args := args } w).2.trace
        = visibleDuringPrompt w.trace ++ [{ w.bar with promptType := PT_FILTER }]) ∧
    -- in particular
    (∀ b ∈ [(HandleAction env { ActionType := ACTION_PROMPT, Args := args } w).2.bar,
            (HandleAction env { ActionType := ACTION_SEARCH_PROMPT, Args := args } w).2.bar,
            (HandleAction env { ActionType := ACTION_REVERSE_SEARCH_PROMPT, Args := args }
              w).2.bar,
            (HandleAction env { ActionType := ACTION_FILTER_PROMPT, Args := args } w).2.bar,
            { w.bar with promptType := PT_COMMAND },
            { w.bar with promptType := PT_SEARCH },
            { w.bar with promptType := PT_FILTER }],
      b.active = w.bar.active ∧ b.pendingStatus = w.bar.pendingStatus) := by
  refine ⟨⟨?_, ?_⟩, ⟨?_, ?_⟩, ⟨?_, ?_⟩, ⟨?_, ?_⟩, ?_⟩
  · simp [HandleAction, showCommandPrompt_eq]
  · simp [HandleAction, showCommandPrompt_eq, visibleDuringPrompt_append, visibleDuringPrompt]
  · simp [HandleAction, showSearchPrompt_eq]
  · simp [HandleAction, showSearchPrompt_eq, visibleDuringPrompt_append, visibleDuringPrompt]
  · simp [HandleAction, showSearchPrompt_eq]
  · simp [HandleAction, showSearchPrompt_eq, visibleDuringPrompt_append, visibleDuringPrompt]
  · simp [HandleAction, showFilterPrompt_eq]
  · by_cases h : env.Prompt FILTER_PROMPT_TEXT = [] <;>
      simp [HandleAction, showFilterPrompt_eq, visibleDuringPrompt_append, visibleDuringPrompt, h]
  · intro b hb
    simp only [List.mem_cons, List.mem_singleton, List.not_mem_nil, or_false] at hb
    rcases hb with rfl | rfl | rfl | rfl | rfl | rfl | rfl <;>
      simp [HandleAction, showCommandPrompt_eq, showSearchPrompt_eq, showFilterPrompt_eq]

/-- Witness for `prompt_frame`: started active with a pending status, the
search prompt shows and leaves both as they were. -/
theorem prompt_frame_witness :
    (HandleAction (fixedEnv (str "foo") [] ([], [], 0)) { ActionType := ACTION_SEARCH_PROMPT }
        { bar := { active := true, promptType := PT_NONE, pendingStatus := str "ok" },
          trace := [] }).2.bar
      = { active := true, promptType := PT_NONE, pendingStatus := str "ok" } :=
  (prompt_frame (fixedEnv (str "foo") [] ([], [], 0))
    { bar := { active := true, promptType := PT_NONE, pendingStatus := str "ok" },
      trace := [] } []).2.1.1

/-! ## Reference definition of the cursor column -/

/-- The reference column depends on the edit byte offset only through the
tests `end ≤ p` at the ends of the code points. -/
theorem referenceColumn_congr (RuneWidth : Int → Int) (f : GoString) (cs : List Nat)
    (p q : Int) (h : ∀ ce ∈ withEnds 0 cs, ((ce.2 : Int) ≤ p ↔ (ce.2 : Int) ≤ q)) :
    referenceColumn RuneWidth f cs p = referenceColumn RuneWidth f cs q := by
  unfold referenceColumn
  congr 2
  apply congrArg
  apply List.filter_congr
  intro ce hce
  have := h ce hce
  by_cases hp : (ce.2 : Int) ≤ p
  · simp [hp, this.mp hp]
  · have hq : ¬ (ce.2 : Int) ≤ q := fun hq => hp (this.mpr hq)
    simp [hp, hq]

/-- C19: for every framing text `f`, every valid UTF-8 input (the encoding of
scalar values) and every edit byte offset `p`, the column `Render` computes
equals the starting value for `f` (its length) plus the number of code points
of the input that have positive display width and whose last byte ends at a
byte position `≤ p`.  Consequently: `p = 0` gives the starting value alone,
for every input (any bytes); an edit point inside a code point gives the same
column as an edit point at that code point's first byte; and the column never
exceeds the starting value plus the number of code points of the input. -/
theorem cursorColumn_reference (RuneWidth : Int → Int) (f : GoString) (cs : List Nat)
    (hcs : ∀ x ∈ cs, ValidRune x) :
    (∀ p : Int,
      cursorColumn RuneWidth f (encodeRunes cs) p = referenceColumn RuneWidth f cs p) ∧
    (∀ promptInput : GoString,
      cursorColumn RuneWidth f promptInput 0 = (f.length : Int)) ∧
    (∀ (pre : List Nat) (c : Nat) (post : List Nat) (p : Int), cs = pre ++ c :: post →
      ((encodeRunes pre).length : Int) ≤ p →
      p < ((encodeRunes pre).length : Int) + ((EncodeRune c).length : Int) →
      cursorColumn RuneWidth f (encodeRunes cs) p =
        cursorColumn RuneWidth f (encodeRunes cs) ((encodeRunes pre).length : Int)) ∧
    (∀ p : Int,
      cursorColumn RuneWidth f (encodeRunes cs) p ≤ (f.length : Int) + (cs.length : Int)) := by
  refine ⟨fun p => cursorColumn_eq_referenceColumn RuneWidth f cs hcs p,
    fun s => cursorColumn_zero RuneWidth f s, ?_, ?_⟩
  · intro pre c post p hsplit hlo hhi
    rw [cursorColumn_eq_referenceColumn RuneWidth f cs hcs,
      cursorColumn_eq_referenceColumn RuneWidth f cs hcs]
    apply referenceColumn_congr
    intro ce hce
    rw [hsplit] at hce
    have hgap := withEnds_gap 0 pre c post ce hce
    constructor <;> intro _ <;> omega
  · intro p
    rw [cursorColumn_eq_referenceColumn RuneWidth f cs hcs]
    unfold referenceColumn
    have h1 := List.length_filter_le
      (fun ce : Nat × Nat => decide (RuneWidth (ce.1 : Int) > 0) && decide ((ce.2 : Int) ≤ p))
      (withEnds 0 cs)
    rw [withEnds_length] at h1
    omega

/-- Witness for `cursorColumn_reference`: framing ":", input "aé漢" (bytes 1, 2
and 3 long); the edit offsets 1 and 2, at the first byte of "é" and inside it,
give the same column. -/
theorem cursorColumn_reference_witness :
    (∀ x ∈ [0x61, 0xE9, 0x6F22], ValidRune x) ∧
    cursorColumn sampleWidth (str ":") (encodeRunes [0x61, 0xE9, 0x6F22]) 2 =
      cursorColumn sampleWidth (str ":") (encodeRunes [0x61, 0xE9, 0x6F22])
        ((encodeRunes [0x61]).length : Int) :=
  ⟨by decide,
   (cursorColumn_reference sampleWidth (str ":") [0x61, 0xE9, 0x6F22] (by decide)).2.2.1
     [0x61] 0xE9 [0x6F22] 2 rfl (by decide) (by decide)⟩

end StatusBar
